import Mathlib

/-!
# Verification of the `luster` VM dispatcher and lexer

A shallow embedding of `src/vm.rs` (the bytecode dispatcher `run_vm` and its
helpers) and `src/lexer.rs` (the byte-level tokenizer), with theorems settling
the specification claims about them.

Conventions of the embedding:
* Rust `u8` bytes are `Nat` (always `< 256` for the inputs considered).
* Rust `i64` is `Int`, with two's-complement wrap-around (`wrap64`) applied
  where the release-mode semantics of `i64` arithmetic wraps.
* Rust `f64` (`Value::Number`) is modelled as `Rat`: the claims under
  consideration only concern ordering and branch structure on the number path,
  which rationals share with the binary64 values reachable in the witnesses.
* Rust panics (`assert!`, `unwrap`, `panic!` sites, out-of-bounds indexing and
  the `unimplemented` numeral routine) are the distinguished outcome `.abort`,
  separate from returning an error value.
* Heap objects (tables, closures) live in explicit stores inside the machine
  state, addressed by index; `gc_arena` allocation is modelled as appending to
  the store.
-/

namespace Luster

/-- Errors of `vm.rs` `BinaryOperatorError`, one variant per operation kind. -/
inductive BinaryOperatorError where
  | add
  | subtract
  | multiply
  | floatDivide
  | floorDivide
  | modulo
  | exponentiate
  | unaryNegate
  | bitAnd
  | bitOr
  | bitXor
  | shiftLeft
  | shiftRight
  | lessThan
  | lessEqual
deriving DecidableEq, Fintype

/-- Two's complement wrap-around of `Int` into the `i64` range, the
release-mode behaviour of Rust `i64` arithmetic. -/
def wrap64 (n : Int) : Int :=
  (n + 2 ^ 63) % 2 ^ 64 - 2 ^ 63

/-- Runtime values. `Value` itself lives in `value.rs` which is not under
`src/`; the variant list is modelled from the spec §3 (Thread values are not
needed by any claim and are omitted). Tables and functions are heap references,
modelled as indices into the stores of the machine state. -/
inductive Value where
  | nil
  | boolean (b : Bool)
  | integer (i : Int)
  | number (n : Rat)
  | str (s : List Nat)
  | table (id : Nat)
  | fn (id : Nat)
deriving DecidableEq

namespace Value

/-- Modelled from the spec: `Value::type_name` (in `value.rs`, missing from
`src/`); the Lua type names, with Integer and Number both "number". -/
def typeName : Value → String
  | .nil => "nil"
  | .boolean _ => "boolean"
  | .integer _ => "number"
  | .number _ => "number"
  | .str _ => "string"
  | .table _ => "table"
  | .fn _ => "function"

/-- Modelled from the spec: `Value::to_bool` — Nil and false are falsy, every
other value is truthy (§4.2). -/
def toBool : Value → Bool
  | .nil => false
  | .boolean b => b
  | _ => true

/-- Modelled from the spec: `Value::not` — logical negation returning Boolean. -/
def lnot (v : Value) : Value :=
  .boolean (!v.toBool)

/-- Modelled from the spec: `Value::to_number` — Integer widens to Number,
Number is itself (§4.2).  String-to-number numeral parsing is tied to the
`numeral` routine, which is `unimplemented!()` in the source (spec §9), so
strings do not coerce in this model; no claim depends on a string numeral. -/
def toNumber : Value → Option Rat
  | .integer i => some (i : Rat)
  | .number n => some n
  | _ => none

/-- Modelled from the spec: coercion to Integer for the bitwise family —
a Number converts only when exactly representable as an integer (§4.2). -/
def toInteger : Value → Option Int
  | .integer i => some i
  | .number n => if n.den = 1 then some n.num else none
  | _ => none

/-- Modelled from the spec: Lua equality `==` (§4.2): structural on
Nil/Boolean/Integer/Number/String with Integer/Number of equal mathematical
value equal; Tables/Functions by identity. -/
def luaEq : Value → Value → Bool
  | .nil, .nil => true
  | .boolean a, .boolean b => a == b
  | .integer a, .integer b => a == b
  | .number a, .number b => a == b
  | .integer a, .number b => (a : Rat) == b
  | .number a, .integer b => a == (b : Rat)
  | .str a, .str b => a == b
  | .table a, .table b => a == b
  | .fn a, .fn b => a == b
  | _, _ => false

/-- Modelled from the spec: `Value::add` (§4.2) — Integer path wraps modulo
2^64; otherwise both coerce to Number or the operation fails. -/
def add : Value → Value → Option Value
  | .integer a, .integer b => some (.integer (wrap64 (a + b)))
  | a, b =>
    match a.toNumber, b.toNumber with
    | some x, some y => some (.number (x + y))
    | _, _ => none

/-- Modelled from the spec: `Value::subtract` (§4.2). -/
def subtract : Value → Value → Option Value
  | .integer a, .integer b => some (.integer (wrap64 (a - b)))
  | a, b =>
    match a.toNumber, b.toNumber with
    | some x, some y => some (.number (x - y))
    | _, _ => none

/-- Modelled from the spec: `Value::multiply` (§4.2). -/
def multiply : Value → Value → Option Value
  | .integer a, .integer b => some (.integer (wrap64 (a * b)))
  | a, b =>
    match a.toNumber, b.toNumber with
    | some x, some y => some (.number (x * y))
    | _, _ => none

/-- Modelled from the spec: `Value::float_divide` (§4.2) — always Number.
Binary64 division by zero yields an infinity, which has no rational
counterpart; `Rat` division by zero yields `0` here, and no claim touches
that case. -/
def floatDivide : Value → Value → Option Value
  | a, b =>
    match a.toNumber, b.toNumber with
    | some x, some y => some (.number (x / y))
    | _, _ => none

/-- Modelled from the spec: `Value::floor_divide` (§4.2) — Integer path fails
on division by zero, float path is `floor (a / b)` as a Number. -/
def floorDivide : Value → Value → Option Value
  | .integer a, .integer b =>
    if b = 0 then none else some (.integer (wrap64 (Int.fdiv a b)))
  | a, b =>
    match a.toNumber, b.toNumber with
    | some x, some y => some (.number (⌊x / y⌋ : Int))
    | _, _ => none

/-- Modelled from the spec: `Value::modulo` (§4.2) — `a - floor(a/b)*b`;
Integer modulo by zero fails. -/
def modulo : Value → Value → Option Value
  | .integer a, .integer b =>
    if b = 0 then none else some (.integer (wrap64 (Int.emod a b)))
  | a, b =>
    match a.toNumber, b.toNumber with
    | some x, some y => some (.number (x - (⌊x / y⌋ : Int) * y))
    | _, _ => none

/-- Modelled from the spec: `Value::exponentiate` (§4.2) — always Number.
A non-integer rational exponent has no representation in the `Rat` model; the
integer-exponent case is exact and no claim touches the rest. -/
def exponentiate : Value → Value → Option Value
  | a, b =>
    match a.toNumber, b.toNumber with
    | some x, some y =>
      some (.number (if y.den = 1 ∧ 0 ≤ y.num then x ^ y.num.toNat else 0))
    | _, _ => none

/-- Modelled from the spec: `Value::negate` (§4.2) — integer negation wraps,
float negation is exact. -/
def negate : Value → Option Value
  | .integer a => some (.integer (wrap64 (-a)))
  | .number n => some (.number (-n))
  | _ => none

/-- Modelled from the spec: `Value::bitwise_not` (§4.2) — integer bitwise
complement after coercion to Integer. -/
def bitwiseNot (v : Value) : Option Value :=
  match v.toInteger with
  | some a => some (.integer (wrap64 (-(a + 1))))
  | none => none

/-- Modelled from the spec: `Value::bitwise_and` (§4.2). -/
def bitwiseAnd (l r : Value) : Option Value :=
  match l.toInteger, r.toInteger with
  | some a, some b => some (.integer (Int.land a b))
  | _, _ => none

/-- Modelled from the spec: `Value::bitwise_or` (§4.2). -/
def bitwiseOr (l r : Value) : Option Value :=
  match l.toInteger, r.toInteger with
  | some a, some b => some (.integer (Int.lor a b))
  | _, _ => none

/-- Modelled from the spec: `Value::bitwise_xor` (§4.2). -/
def bitwiseXor (l r : Value) : Option Value :=
  match l.toInteger, r.toInteger with
  | some a, some b => some (.integer (Int.xor a b))
  | _, _ => none

/-- Modelled from the spec: shift by a possibly negative amount (§4.2, §9):
shifts of 64 or more produce 0, negative shifts reverse direction. -/
def shiftInt (a : Int) (b : Int) : Int :=
  if 0 ≤ b then
    if 64 ≤ b then 0 else wrap64 (a * 2 ^ b.toNat)
  else
    if 64 ≤ -b then 0 else (a % 2 ^ 64) / 2 ^ (-b).toNat

/-- Modelled from the spec: `Value::shift_left` (§4.2). -/
def shiftLeft (l r : Value) : Option Value :=
  match l.toInteger, r.toInteger with
  | some a, some b => some (.integer (shiftInt a b))
  | _, _ => none

/-- Modelled from the spec: `Value::shift_right` (§4.2). -/
def shiftRight (l r : Value) : Option Value :=
  match l.toInteger, r.toInteger with
  | some a, some b => some (.integer (shiftInt a (-b)))
  | _, _ => none

/-- Modelled from the spec: lexicographic byte order on strings (§4.2). -/
def bytesLt : List Nat → List Nat → Bool
  | _ :: _, [] => false
  | [], _ :: _ => true
  | [], [] => false
  | a :: as_, b :: bs => if a = b then bytesLt as_ bs else decide (a < b)

/-- Modelled from the spec: `Value::less_than` (§4.2) — numeric ordering on
number pairs, lexicographic byte ordering on string pairs, else fails. -/
def lessThan : Value → Value → Option Bool
  | .str a, .str b => some (bytesLt a b)
  | a, b =>
    match a.toNumber, b.toNumber with
    | some x, some y => some (decide (x < y))
    | _, _ => none

/-- Modelled from the spec: `Value::less_equal` (§4.2). -/
def lessEqual : Value → Value → Option Bool
  | .str a, .str b => some (!bytesLt b a)
  | a, b =>
    match a.toNumber, b.toNumber with
    | some x, some y => some (decide (x ≤ y))
    | _, _ => none

end Value

/-- Upvalue descriptors of a prototype (`UpValueDescriptor` in the shared
type definitions, reproduced exactly as matched by `vm.rs`). -/
inductive UpValueDescriptor where
  | environment
  | parentLocal (r : Nat)
  | outer (i : Nat)
deriving DecidableEq

/-- Constant-pool entries (spec §3: Nil/Boolean/Integer/Number/String only). -/
inductive Constant where
  | nil
  | boolean (b : Bool)
  | integer (i : Int)
  | number (n : Rat)
  | str (s : List Nat)
deriving DecidableEq

/-- The `Constant::to_value`. -/
def Constant.toValue : Constant → Value
  | .nil => .nil
  | .boolean b => .boolean b
  | .integer i => .integer i
  | .number n => .number n
  | .str s => .str s

/-- The opcode set of `vm.rs`, with register, constant, upvalue and prototype
indices as `Nat` and jump offsets as `Int` (`i16` in the source; the checked
widening arithmetic of `add_offset` is modelled directly on `Int`).
`VarCount`-typed operands are `Option Nat` (`none` = variable). -/
inductive OpCode where
  | move (dest source : Nat)
  | loadConstant (dest constant : Nat)
  | loadBool (dest : Nat) (value skipNext : Bool)
  | loadNil (dest count : Nat)
  | newTable (dest : Nat)
  | getTableR (dest table key : Nat)
  | getTableC (dest table key : Nat)
  | setTableRR (table key value : Nat)
  | setTableRC (table key value : Nat)
  | setTableCR (table key value : Nat)
  | setTableCC (table key value : Nat)
  | getUpTableR (dest table key : Nat)
  | getUpTableC (dest table key : Nat)
  | setUpTableRR (table key value : Nat)
  | setUpTableRC (table key value : Nat)
  | setUpTableCR (table key value : Nat)
  | setUpTableCC (table key value : Nat)
  | call (func : Nat) (args returns : Option Nat)
  | tailCall (func : Nat) (args : Option Nat)
  | ret (start : Nat) (count : Option Nat)
  | varArgs (dest : Nat) (count : Option Nat)
  | jump (offset : Int) (closeUpvalues : Option Nat)
  | test (value : Nat) (isTrue : Bool)
  | testSet (dest value : Nat) (isTrue : Bool)
  | closure (proto dest : Nat)
  | numericForPrep (base : Nat) (jmp : Int)
  | numericForLoop (base : Nat) (jmp : Int)
  | genericForCall (base varCount : Nat)
  | genericForLoop (base : Nat) (jmp : Int)
  | selfR (base table key : Nat)
  | selfC (base table key : Nat)
  | concat (dest source count : Nat)
  | getUpValue (source dest : Nat)
  | setUpValue (source dest : Nat)
  | length (dest source : Nat)
  | eqRR (skipIf : Bool) (left right : Nat)
  | eqRC (skipIf : Bool) (left right : Nat)
  | eqCR (skipIf : Bool) (left right : Nat)
  | eqCC (skipIf : Bool) (left right : Nat)
  | lessRR (skipIf : Bool) (left right : Nat)
  | lessRC (skipIf : Bool) (left right : Nat)
  | lessCR (skipIf : Bool) (left right : Nat)
  | lessCC (skipIf : Bool) (left right : Nat)
  | lessEqRR (skipIf : Bool) (left right : Nat)
  | lessEqRC (skipIf : Bool) (left right : Nat)
  | lessEqCR (skipIf : Bool) (left right : Nat)
  | lessEqCC (skipIf : Bool) (left right : Nat)
  | lnot (dest source : Nat)
  | minus (dest source : Nat)
  | bitNot (dest source : Nat)
  | addRR (dest left right : Nat)
  | addRC (dest left right : Nat)
  | addCR (dest left right : Nat)
  | addCC (dest left right : Nat)
  | subRR (dest left right : Nat)
  | subRC (dest left right : Nat)
  | subCR (dest left right : Nat)
  | subCC (dest left right : Nat)
  | mulRR (dest left right : Nat)
  | mulRC (dest left right : Nat)
  | mulCR (dest left right : Nat)
  | mulCC (dest left right : Nat)
  | divRR (dest left right : Nat)
  | divRC (dest left right : Nat)
  | divCR (dest left right : Nat)
  | divCC (dest left right : Nat)
  | idivRR (dest left right : Nat)
  | idivRC (dest left right : Nat)
  | idivCR (dest left right : Nat)
  | idivCC (dest left right : Nat)
  | modRR (dest left right : Nat)
  | modRC (dest left right : Nat)
  | modCR (dest left right : Nat)
  | modCC (dest left right : Nat)
  | powRR (dest left right : Nat)
  | powRC (dest left right : Nat)
  | powCR (dest left right : Nat)
  | powCC (dest left right : Nat)
  | bitAndRR (dest left right : Nat)
  | bitAndRC (dest left right : Nat)
  | bitAndCR (dest left right : Nat)
  | bitAndCC (dest left right : Nat)
  | bitOrRR (dest left right : Nat)
  | bitOrRC (dest left right : Nat)
  | bitOrCR (dest left right : Nat)
  | bitOrCC (dest left right : Nat)
  | bitXorRR (dest left right : Nat)
  | bitXorRC (dest left right : Nat)
  | bitXorCR (dest left right : Nat)
  | bitXorCC (dest left right : Nat)
  | shiftLeftRR (dest left right : Nat)
  | shiftLeftRC (dest left right : Nat)
  | shiftLeftCR (dest left right : Nat)
  | shiftLeftCC (dest left right : Nat)
  | shiftRightRR (dest left right : Nat)
  | shiftRightRC (dest left right : Nat)
  | shiftRightCR (dest left right : Nat)
  | shiftRightCC (dest left right : Nat)

/-- Compiled function prototypes (spec §3); nested, hence an inductive with
explicit projections. Parameter counts and register maxima are not consulted
by `run_vm` and are omitted. -/
inductive FunctionProto where
  | mk (opcodes : List OpCode) (constants : List Constant)
       (prototypes : List FunctionProto) (upvalues : List UpValueDescriptor)

def FunctionProto.opcodes : FunctionProto → List OpCode
  | .mk o _ _ _ => o

def FunctionProto.constants : FunctionProto → List Constant
  | .mk _ c _ _ => c

def FunctionProto.prototypes : FunctionProto → List FunctionProto
  | .mk _ _ p _ => p

def FunctionProto.upvalues : FunctionProto → List UpValueDescriptor
  | .mk _ _ _ u => u

/-- An upvalue cell (spec §3): open cells point at a register of the current
frame by index, closed cells hold their value. -/
inductive UpCell where
  | open_ (idx : Nat)
  | closed (v : Value)
deriving DecidableEq

/-- The `ClosureState`: a prototype plus the captured upvalue references
(indices into the machine's upvalue store). -/
structure ClosureV where
  proto : FunctionProto
  upvalues : List Nat

/-- Modelled from the spec: a table (§3) as its entry association list; the
array/hash split is a performance detail invisible to `get`/`set`/`length`. -/
structure LuaTable where
  entries : List (Value × Value)
deriving DecidableEq

/-- Modelled from the spec: `Table::get` — lookup by Lua equality, absent keys
give Nil. -/
def LuaTable.get (t : LuaTable) (k : Value) : Value :=
  match t.entries.find? (fun e => e.1.luaEq k) with
  | some e => e.2
  | none => .nil

/-- Modelled from the spec: `Table::set` — writing with a Nil key fails;
writing Nil removes the key. -/
def LuaTable.set (t : LuaTable) (k v : Value) : Option LuaTable :=
  if k = .nil then none
  else
    let cleared := t.entries.filter (fun e => !e.1.luaEq k)
    some ⟨if v = .nil then cleared else (k, v) :: cleared⟩

/-- Modelled from the spec: `Table::length` — a border (§3); this model
returns the canonical border: the largest `n` with `1..n` all present. -/
def LuaTable.lengthFrom (t : LuaTable) : Nat → Nat → Nat
  | 0, n => n
  | fuel + 1, n =>
    if t.get (.integer (n + 1)) = .nil then n
    else t.lengthFrom fuel (n + 1)

def LuaTable.length (t : LuaTable) : Int :=
  (t.lengthFrom (t.entries.length + 1) 0 : Int)

/-- Runtime error values returned (as `Err`) by `run_vm`. -/
inductive VMError where
  | binOp (e : BinaryOperatorError)
  | typeError (expected found : String)
  | invalidTableKey
  | expectedVariable (b : Bool)
deriving DecidableEq

/-- Outcome of a VM computation: a value, a returned Lua error, or an abnormal
termination (a Rust panic: failed `assert!`/`unwrap`, `panic!` site, or
out-of-bounds slice index). -/
inductive VMOut (α : Type) where
  | ok (a : α)
  | err (e : VMError)
  | abort
deriving DecidableEq

instance : Monad VMOut where
  pure := VMOut.ok
  bind x f :=
    match x with
    | .ok a => f a
    | .err e => .err e
    | .abort => .abort

/-- The Lua error carried by an outcome, if any. -/
def VMOut.errOf {α : Type} : VMOut α → Option VMError
  | .ok _ => none
  | .err e => some e
  | .abort => none

/-- Computation rules of the `VMOut` monad. -/
@[simp] theorem VMOut.ok_bind {α β : Type} (a : α) (f : α → VMOut β) :
    (VMOut.ok a >>= f) = f a :=
  rfl

@[simp] theorem VMOut.err_bind {α β : Type} (e : VMError) (f : α → VMOut β) :
    ((VMOut.err e : VMOut α) >>= f) = .err e :=
  rfl

@[simp] theorem VMOut.abort_bind {α β : Type} (f : α → VMOut β) :
    ((VMOut.abort : VMOut α) >>= f) = .abort :=
  rfl

@[simp] theorem VMOut.pure_def {α : Type} (a : α) :
    (pure a : VMOut α) = .ok a :=
  rfl

/-- The machine state visible to the dispatcher: the register window and pc of
the current frame (`registers` in `run_vm`), plus heap stores for tables,
closures and upvalue cells (the `gc_arena` heap and the thread's upvalue
list, modelled from the spec as indexed stores). `constReg` distinguishes the
fixed-size register window case (`constant_registers()` returned `Some`) from
the variable stack-frame state. -/
structure VMState where
  pc : Nat
  stackFrame : List Value
  tables : List LuaTable
  closures : List ClosureV
  upvals : List UpCell
  constReg : Bool

/-- Register read, `registers.stack_frame[i]`; out of bounds is a Rust panic. -/
def readReg (st : VMState) (i : Nat) : VMOut Value :=
  match st.stackFrame.get? i with
  | some v => .ok v
  | none => .abort

/-- Register write; out of bounds is a Rust panic. -/
def writeReg (st : VMState) (i : Nat) (v : Value) : VMOut VMState :=
  if i < st.stackFrame.length then
    .ok { st with stackFrame := st.stackFrame.set i v }
  else .abort

/-- Constant-pool fetch, `current_function.0.proto.constants[i].to_value()`. -/
def readConst (cf : ClosureV) (i : Nat) : VMOut Value :=
  match cf.proto.constants.get? i with
  | some c => .ok c.toValue
  | none => .abort

/-- Upvalue-reference fetch, `current_function.0.upvalues[i]`. -/
def readUpvalRef (cf : ClosureV) (i : Nat) : VMOut Nat :=
  match cf.upvalues.get? i with
  | some u => .ok u
  | none => .abort

/-- Modelled from the spec: `registers.get_upvalue` (thread code, missing from
`src/`) — an open cell reads the register it points at, a closed cell its
stored value. -/
def getUpvalue (st : VMState) (u : Nat) : VMOut Value :=
  match st.upvals.get? u with
  | some (.open_ idx) => .ok (st.stackFrame.getD idx .nil)
  | some (.closed v) => .ok v
  | none => .abort

/-- Modelled from the spec: `registers.set_upvalue`. -/
def setUpvalue (st : VMState) (u : Nat) (v : Value) : VMOut VMState :=
  match st.upvals.get? u with
  | some (.open_ idx) =>
    .ok { st with stackFrame := st.stackFrame.set idx v }
  | some (.closed _) =>
    .ok { st with upvals := st.upvals.set u (.closed v) }
  | none => .abort

/-- Modelled from the spec: `registers.open_upvalue` (§4.3) — reuse the open
cell already pointing at this register if there is one, else allocate one. -/
def openUpvalue (st : VMState) (r : Nat) : Nat × VMState :=
  match st.upvals.findIdx? (fun c => c = .open_ r) with
  | some i => (i, st)
  | none => (st.upvals.length, { st with upvals := st.upvals ++ [.open_ r] })

/-- Modelled from the spec: `registers.close_upvalues` (§4.4) — every open
cell at register `r` or above becomes closed over its current value. -/
def closeUpvalues (st : VMState) (r : Nat) : VMState :=
  { st with
    upvals := st.upvals.map fun c =>
      match c with
      | .open_ idx => if r ≤ idx then .closed (st.stackFrame.getD idx .nil) else c
      | .closed v => .closed v }

/-- The `get_table` of `vm.rs`: the table behind a value, or the `TypeError`
expecting a table. -/
def getTable (v : Value) : VMOut Nat :=
  match v with
  | .table t => .ok t
  | val => .err (.typeError "table" val.typeName)

/-- Read a table from the heap store (a live `Table` handle in Rust, so a
missing index is unreachable and modelled as a panic). -/
def heapTable (st : VMState) (id : Nat) : VMOut LuaTable :=
  match st.tables.get? id with
  | some t => .ok t
  | none => .abort

/-- The `Table::get` through the heap. -/
def tableGetOp (st : VMState) (id : Nat) (k : Value) : VMOut Value := do
  let t ← heapTable st id
  pure (t.get k)

/-- The `Table::set` through the heap; a Nil key yields the table error. -/
def tableSetOp (st : VMState) (id : Nat) (k v : Value) : VMOut VMState := do
  let t ← heapTable st id
  match t.set k v with
  | some t2 => pure { st with tables := st.tables.set id t2 }
  | none => .err .invalidTableKey

/-- The `add_offset` of `vm.rs`: checked pc adjustment; wrap-around of `usize`
(impossible in practice) is the checked-arithmetic panic. -/
def addOffset (pc : Nat) (offset : Int) : VMOut Nat :=
  if (pc : Int) + offset < 0 then .abort else .ok ((pc : Int) + offset).toNat

/-- The `LoadNil`'s write loop: fill `count` registers starting at `dest`. -/
def writeNils (st : VMState) (dest : Nat) : Nat → VMOut VMState
  | 0 => .ok st
  | n + 1 => do
    let st' ← writeReg st dest .nil
    writeNils st' (dest + 1) n

/-- Modelled from the spec: per-element coercion of `String::concat`
(§4.5 Concat): String stays itself, Integer and Number print as their decimal
numerals, all else fails. The printed form of a Number is a placeholder (no
claim depends on it). -/
def coerceToBytes : Value → Option (List Nat)
  | .str s => some s
  | .integer i => some ((toString i).toList.map Char.toNat)
  | .number n => some ((toString n).toList.map Char.toNat)
  | _ => none

/-- Modelled from the spec: `String::concat` over a slice of values. -/
def strConcat : List Value → Option (List Nat)
  | [] => some []
  | v :: vs => do
    let b ← coerceToBytes v
    let rest ← strConcat vs
    pure (b ++ rest)

/-- The `Concat` source slice `stack_frame[source..source + count]`; slicing
out of bounds is a Rust panic. -/
def readSlice (st : VMState) (source count : Nat) : VMOut (List Value) :=
  if source + count ≤ st.stackFrame.length then
    .ok ((st.stackFrame.drop source).take count)
  else .abort

/-- The upvalue-capture loop of the `Closure` opcode: resolve each descriptor
of the nested prototype, panicking on an `Environment` descriptor. -/
def captureUpvals (cf : ClosureV) (st : VMState) :
    List UpValueDescriptor → VMOut (List Nat × VMState)
  | [] => .ok ([], st)
  | .environment :: _ => .abort
  | .parentLocal r :: rest =>
    let (u, st') := openUpvalue st r
    match captureUpvals cf st' rest with
    | .ok (us, st2) => .ok (u :: us, st2)
    | .err e => .err e
    | .abort => .abort
  | .outer i :: rest => do
    let u ← readUpvalRef cf i
    match captureUpvals cf st rest with
    | .ok (us, st2) => .ok (u :: us, st2)
    | .err e => .err e
    | .abort => .abort

/-- One binary arithmetic/bitwise arm: apply the value operation, write the
destination register, or return the given `BinaryOperatorError` (exactly the
`ok_or(...)` argument of the corresponding arm of `run_vm`). -/
def binArith (st : VMState) (dest : Nat) (l r : Value)
    (f : Value → Value → Option Value) (e : BinaryOperatorError) :
    VMOut (VMState × Bool) :=
  match f l r with
  | some v => do
    let st' ← writeReg st dest v
    pure (st', false)
  | none => .err (.binOp e)

/-- One comparison arm (`Less*`/`LessEq*`): skip the next instruction when the
comparison result equals `skipIf`, or return the given error. -/
def cmpSkip (st : VMState) (skipIf : Bool) (l r : Value)
    (f : Value → Value → Option Bool) (e : BinaryOperatorError) :
    VMOut (VMState × Bool) :=
  match f l r with
  | some b =>
    if b = skipIf then pure ({ st with pc := st.pc + 1 }, false)
    else pure (st, false)
  | none => .err (.binOp e)

/-- One equality arm (`Eq*`): Lua equality is total, so no error case. -/
def eqSkip (st : VMState) (skipIf : Bool) (l r : Value) : VMOut (VMState × Bool) :=
  if l.luaEq r = skipIf then pure ({ st with pc := st.pc + 1 }, false)
  else pure (st, false)

/-- The `Closure` arm of `run_vm` (factored out of the dispatcher so that it
can be reasoned about in isolation; the body is the arm verbatim). -/
def closureOp (cf : ClosureV) (st : VMState) (proto dest : Nat) :
    VMOut (VMState × Bool) :=
  match cf.proto.prototypes.get? proto with
  | none => .abort
  | some p => do
    let (ups, st1) ← captureUpvals cf st p.upvalues
    let id := st1.closures.length
    let st2 := { st1 with closures := st1.closures ++ [⟨p, ups⟩] }
    let st' ← writeReg st2 dest (.fn id)
    pure (st', false)

/-- The `NumericForLoop` arm of `run_vm` (factored out of the dispatcher so
that it can be reasoned about in isolation; the body is the arm verbatim). -/
def numericForLoopOp (st : VMState) (base : Nat) (jmp : Int) :
    VMOut (VMState × Bool) := do
  let iv ← readReg st base
  let lv ← readReg st (base + 1)
  let sv ← readReg st (base + 2)
  match iv, lv, sv with
  | .integer index, .integer limit, .integer step =>
    let index' := wrap64 (index + step)
    do
      let st1 ← writeReg st base (.integer index')
      let pastEnd := if step < 0 then index' < limit else limit < index'
      if pastEnd then pure (st1, false)
      else do
        let pc' ← addOffset st1.pc jmp
        let st2 ← writeReg { st1 with pc := pc' } (base + 3) (.integer index')
        pure (st2, false)
  | iv, lv, sv =>
    match iv.toNumber, lv.toNumber, sv.toNumber with
    | some index, some limit, some step =>
      let index' := index + step
      do
        let st1 ← writeReg st base (.number index')
        let pastEnd := if step < 0 then index' < limit else limit < index'
        if pastEnd then pure (st1, false)
        else do
          let pc' ← addOffset st1.pc jmp
          let st2 ← writeReg { st1 with pc := pc' } (base + 3) (.number index')
          pure (st2, false)
    | _, _, _ => .err (.binOp .add)

/-- One step of the dispatcher loop of `run_vm`, executing a single already
fetched opcode (the pc in `st` has been advanced past it). The boolean of
the result is `true` exactly when the source arm ends in `break` (the
current frame may have been changed). The frame-transfer primitives
(`call_function`, `tail_call_function`, `return_upper`, `varargs`,
`call_function_non_destructive`) live in the thread module, which is not
under `src/`; their effect is external to the dispatcher and they are
modelled from the spec as a clean break to the scheduler. -/
def execInstr (cf : ClosureV) (st : VMState) : OpCode → VMOut (VMState × Bool)
  | .move dest source => do
    let v ← readReg st source
    let st' ← writeReg st dest v
    pure (st', false)
  | .loadConstant dest constant => do
    let v ← readConst cf constant
    let st' ← writeReg st dest v
    pure (st', false)
  | .loadBool dest value skipNext => do
    let st' ← writeReg st dest (.boolean value)
    if skipNext then pure ({ st' with pc := st'.pc + 1 }, false)
    else pure (st', false)
  | .loadNil dest count => do
    let st' ← writeNils st dest count
    pure (st', false)
  | .newTable dest => do
    let id := st.tables.length
    let st1 := { st with tables := st.tables ++ [⟨[]⟩] }
    let st' ← writeReg st1 dest (.table id)
    pure (st', false)
  | .getTableR dest table key => do
    let tv ← readReg st table
    let t ← getTable tv
    let k ← readReg st key
    let v ← tableGetOp st t k
    let st' ← writeReg st dest v
    pure (st', false)
  | .getTableC dest table key => do
    let tv ← readReg st table
    let t ← getTable tv
    let k ← readConst cf key
    let v ← tableGetOp st t k
    let st' ← writeReg st dest v
    pure (st', false)
  | .setTableRR table key value => do
    let tv ← readReg st table
    let t ← getTable tv
    let k ← readReg st key
    let v ← readReg st value
    let st' ← tableSetOp st t k v
    pure (st', false)
  | .setTableRC table key value => do
    let tv ← readReg st table
    let t ← getTable tv
    let k ← readReg st key
    let v ← readConst cf value
    let st' ← tableSetOp st t k v
    pure (st', false)
  | .setTableCR table key value => do
    let tv ← readReg st table
    let t ← getTable tv
    let k ← readConst cf key
    let v ← readReg st value
    let st' ← tableSetOp st t k v
    pure (st', false)
  | .setTableCC table key value => do
    let tv ← readReg st table
    let t ← getTable tv
    let k ← readConst cf key
    let v ← readConst cf value
    let st' ← tableSetOp st t k v
    pure (st', false)
  | .getUpTableR dest table key => do
    let u ← readUpvalRef cf table
    let tv ← getUpvalue st u
    let t ← getTable tv
    let k ← readReg st key
    let v ← tableGetOp st t k
    let st' ← writeReg st dest v
    pure (st', false)
  | .getUpTableC dest table key => do
    let u ← readUpvalRef cf table
    let tv ← getUpvalue st u
    let t ← getTable tv
    let k ← readConst cf key
    let v ← tableGetOp st t k
    let st' ← writeReg st dest v
    pure (st', false)
  | .setUpTableRR table key value => do
    let u ← readUpvalRef cf table
    let tv ← getUpvalue st u
    let t ← getTable tv
    let k ← readReg st key
    let v ← readReg st value
    let st' ← tableSetOp st t k v
    pure (st', false)
  | .setUpTableRC table key value => do
    let u ← readUpvalRef cf table
    let tv ← getUpvalue st u
    let t ← getTable tv
    let k ← readReg st key
    let v ← readConst cf value
    let st' ← tableSetOp st t k v
    pure (st', false)
  | .setUpTableCR table key value => do
    let u ← readUpvalRef cf table
    let tv ← getUpvalue st u
    let t ← getTable tv
    let k ← readConst cf key
    let v ← readReg st value
    let st' ← tableSetOp st t k v
    pure (st', false)
  | .setUpTableCC table key value => do
    let u ← readUpvalRef cf table
    let tv ← getUpvalue st u
    let t ← getTable tv
    let k ← readConst cf key
    let v ← readConst cf value
    let st' ← tableSetOp st t k v
    pure (st', false)
  | .call _ _ _ => pure (st, true)
  | .tailCall _ _ => pure (st, true)
  | .ret _ _ => pure (st, true)
  | .varArgs _ _ => pure (st, true)
  | .jump offset closeUps => do
    let pc' ← addOffset st.pc offset
    let st1 := { st with pc := pc' }
    match closeUps with
    | some r => pure (closeUpvalues st1 r, false)
    | none => pure (st1, false)
  | .test value isT => do
    let v ← readReg st value
    if v.toBool = isT then pure ({ st with pc := st.pc + 1 }, false)
    else pure (st, false)
  | .testSet dest value isT => do
    let v ← readReg st value
    if v.toBool = isT then pure ({ st with pc := st.pc + 1 }, false)
    else do
      let st' ← writeReg st dest v
      pure (st', false)
  | .closure proto dest => closureOp cf st proto dest
  | .numericForPrep base jmp => do
    let a ← readReg st base
    let b ← readReg st (base + 2)
    match a.subtract b with
    | none => .err (.binOp .subtract)
    | some v => do
      let st1 ← writeReg st base v
      let pc' ← addOffset st1.pc jmp
      pure ({ st1 with pc := pc' }, false)
  | .numericForLoop base jmp => numericForLoopOp st base jmp
  | .genericForCall _ _ => pure (st, true)
  | .genericForLoop base jmp => do
    let v ← readReg st (base + 1)
    if v.toBool then do
      let st1 ← writeReg st base v
      let pc' ← addOffset st1.pc jmp
      pure ({ st1 with pc := pc' }, false)
    else pure (st, false)
  | .selfR base table key => do
    let tv ← readReg st table
    let k ← readConst cf key
    let st1 ← writeReg st (base + 1) tv
    let t ← getTable tv
    let v ← tableGetOp st1 t k
    let st' ← writeReg st1 base v
    pure (st', false)
  | .selfC base table key => do
    let tv ← readReg st table
    let k ← readConst cf key
    let st1 ← writeReg st (base + 1) tv
    let t ← getTable tv
    let v ← tableGetOp st1 t k
    let st' ← writeReg st1 base v
    pure (st', false)
  | .concat dest source count => do
    let vs ← readSlice st source count
    match strConcat vs with
    | none => .abort
    | some s => do
      let st' ← writeReg st dest (.str s)
      pure (st', false)
  | .getUpValue source dest => do
    let u ← readUpvalRef cf source
    let v ← getUpvalue st u
    let st' ← writeReg st dest v
    pure (st', false)
  | .setUpValue source dest => do
    let u ← readUpvalRef cf dest
    let v ← readReg st source
    let st' ← setUpvalue st u v
    pure (st', false)
  | .length dest source => do
    let sv ← readReg st source
    let t ← getTable sv
    let tb ← heapTable st t
    let st' ← writeReg st dest (.integer tb.length)
    pure (st', false)
  | .eqRR skipIf left right => do
    let l ← readReg st left
    let r ← readReg st right
    eqSkip st skipIf l r
  | .eqRC skipIf left right => do
    let l ← readReg st left
    let r ← readConst cf right
    eqSkip st skipIf l r
  | .eqCR skipIf left right => do
    let l ← readConst cf left
    let r ← readReg st right
    eqSkip st skipIf l r
  | .eqCC skipIf left right => do
    let l ← readConst cf left
    let r ← readConst cf right
    eqSkip st skipIf l r
  | .lessRR skipIf left right => do
    let l ← readReg st left
    let r ← readReg st right
    cmpSkip st skipIf l r Value.lessThan .lessThan
  | .lessRC skipIf left right => do
    let l ← readReg st left
    let r ← readConst cf right
    cmpSkip st skipIf l r Value.lessThan .lessThan
  | .lessCR skipIf left right => do
    let l ← readConst cf left
    let r ← readReg st right
    cmpSkip st skipIf l r Value.lessThan .lessThan
  | .lessCC skipIf left right => do
    let l ← readConst cf left
    let r ← readConst cf right
    cmpSkip st skipIf l r Value.lessThan .lessThan
  | .lessEqRR skipIf left right => do
    let l ← readReg st left
    let r ← readReg st right
    cmpSkip st skipIf l r Value.lessEqual .lessEqual
  | .lessEqRC skipIf left right => do
    let l ← readReg st left
    let r ← readConst cf right
    cmpSkip st skipIf l r Value.lessEqual .lessEqual
  | .lessEqCR skipIf left right => do
    let l ← readConst cf left
    let r ← readReg st right
    cmpSkip st skipIf l r Value.lessEqual .lessEqual
  | .lessEqCC skipIf left right => do
    let l ← readConst cf left
    let r ← readConst cf right
    cmpSkip st skipIf l r Value.lessEqual .lessEqual
  | .lnot dest source => do
    let v ← readReg st source
    let st' ← writeReg st dest v.lnot
    pure (st', false)
  | .minus dest source => do
    let v ← readReg st source
    match v.negate with
    | some w => do
      let st' ← writeReg st dest w
      pure (st', false)
    | none => .err (.binOp .unaryNegate)
  | .bitNot dest source => do
    let v ← readReg st source
    match v.bitwiseNot with
    | some w => do
      let st' ← writeReg st dest w
      pure (st', false)
    | none => .err (.binOp .unaryNegate)
  | .addRR dest left right => do
    let l ← readReg st left
    let r ← readReg st right
    binArith st dest l r Value.add .add
  | .addRC dest left right => do
    let l ← readReg st left
    let r ← readConst cf right
    binArith st dest l r Value.add .add
  | .addCR dest left right => do
    let l ← readConst cf left
    let r ← readReg st right
    binArith st dest l r Value.add .add
  | .addCC dest left right => do
    let l ← readConst cf left
    let r ← readConst cf right
    binArith st dest l r Value.add .add
  | .subRR dest left right => do
    let l ← readReg st left
    let r ← readReg st right
    binArith st dest l r Value.subtract .add
  | .subRC dest left right => do
    let l ← readReg st left
    let r ← readConst cf right
    binArith st dest l r Value.subtract .subtract
  | .subCR dest left right => do
    let l ← readConst cf left
    let r ← readReg st right
    binArith st dest l r Value.subtract .subtract
  | .subCC dest left right => do
    let l ← readConst cf left
    let r ← readConst cf right
    binArith st dest l r Value.subtract .subtract
  | .mulRR dest left right => do
    let l ← readReg st left
    let r ← readReg st right
    binArith st dest l r Value.multiply .multiply
  | .mulRC dest left right => do
    let l ← readReg st left
    let r ← readConst cf right
    binArith st dest l r Value.multiply .multiply
  | .mulCR dest left right => do
    let l ← readConst cf left
    let r ← readReg st right
    binArith st dest l r Value.multiply .multiply
  | .mulCC dest left right => do
    let l ← readConst cf left
    let r ← readConst cf right
    binArith st dest l r Value.multiply .multiply
  | .divRR dest left right => do
    let l ← readReg st left
    let r ← readReg st right
    binArith st dest l r Value.floatDivide .floatDivide
  | .divRC dest left right => do
    let l ← readReg st left
    let r ← readConst cf right
    binArith st dest l r Value.floatDivide .floatDivide
  | .divCR dest left right => do
    let l ← readConst cf left
    let r ← readReg st right
    binArith st dest l r Value.floatDivide .floatDivide
  | .divCC dest left right => do
    let l ← readConst cf left
    let r ← readConst cf right
    binArith st dest l r Value.floatDivide .floatDivide
  | .idivRR dest left right => do
    let l ← readReg st left
    let r ← readReg st right
    binArith st dest l r Value.floorDivide .floorDivide
  | .idivRC dest left right => do
    let l ← readReg st left
    let r ← readConst cf right
    binArith st dest l r Value.floorDivide .floorDivide
  | .idivCR dest left right => do
    let l ← readConst cf left
    let r ← readReg st right
    binArith st dest l r Value.floorDivide .floorDivide
  | .idivCC dest left right => do
    let l ← readConst cf left
    let r ← readConst cf right
    binArith st dest l r Value.floorDivide .floorDivide
  | .modRR dest left right => do
    let l ← readReg st left
    let r ← readReg st right
    binArith st dest l r Value.modulo .modulo
  | .modRC dest left right => do
    let l ← readReg st left
    let r ← readConst cf right
    binArith st dest l r Value.modulo .modulo
  | .modCR dest left right => do
    let l ← readConst cf left
    let r ← readReg st right
    binArith st dest l r Value.modulo .modulo
  | .modCC dest left right => do
    let l ← readConst cf left
    let r ← readConst cf right
    binArith st dest l r Value.modulo .modulo
  | .powRR dest left right => do
    let l ← readReg st left
    let r ← readReg st right
    binArith st dest l r Value.exponentiate .exponentiate
  | .powRC dest left right => do
    let l ← readReg st left
    let r ← readConst cf right
    binArith st dest l r Value.exponentiate .exponentiate
  | .powCR dest left right => do
    let l ← readConst cf left
    let r ← readReg st right
    binArith st dest l r Value.exponentiate .exponentiate
  | .powCC dest left right => do
    let l ← readConst cf left
    let r ← readConst cf right
    binArith st dest l r Value.exponentiate .exponentiate
  | .bitAndRR dest left right => do
    let l ← readReg st left
    let r ← readReg st right
    binArith st dest l r Value.bitwiseAnd .bitAnd
  | .bitAndRC dest left right => do
    let l ← readReg st left
    let r ← readConst cf right
    binArith st dest l r Value.bitwiseAnd .bitAnd
  | .bitAndCR dest left right => do
    let l ← readConst cf left
    let r ← readReg st right
    binArith st dest l r Value.bitwiseAnd .bitAnd
  | .bitAndCC dest left right => do
    let l ← readConst cf left
    let r ← readConst cf right
    binArith st dest l r Value.bitwiseAnd .bitAnd
  | .bitOrRR dest left right => do
    let l ← readReg st left
    let r ← readReg st right
    binArith st dest l r Value.bitwiseOr .bitOr
  | .bitOrRC dest left right => do
    let l ← readReg st left
    let r ← readConst cf right
    binArith st dest l r Value.bitwiseOr .bitOr
  | .bitOrCR dest left right => do
    let l ← readConst cf left
    let r ← readReg st right
    binArith st dest l r Value.bitwiseOr .bitOr
  | .bitOrCC dest left right => do
    let l ← readConst cf left
    let r ← readConst cf right
    binArith st dest l r Value.bitwiseOr .bitOr
  | .bitXorRR dest left right => do
    let l ← readReg st left
    let r ← readReg st right
    binArith st dest l r Value.bitwiseXor .bitXor
  | .bitXorRC dest left right => do
    let l ← readReg st left
    let r ← readConst cf right
    binArith st dest l r Value.bitwiseXor .bitXor
  | .bitXorCR dest left right => do
    let l ← readConst cf left
    let r ← readReg st right
    binArith st dest l r Value.bitwiseXor .bitXor
  | .bitXorCC dest left right => do
    let l ← readConst cf left
    let r ← readConst cf right
    binArith st dest l r Value.bitwiseXor .bitXor
  | .shiftLeftRR dest left right => do
    let l ← readReg st left
    let r ← readReg st right
    binArith st dest l r Value.shiftLeft .shiftLeft
  | .shiftLeftRC dest left right => do
    let l ← readReg st left
    let r ← readConst cf right
    binArith st dest l r Value.shiftLeft .shiftLeft
  | .shiftLeftCR dest left right => do
    let l ← readConst cf left
    let r ← readReg st right
    binArith st dest l r Value.shiftLeft .shiftLeft
  | .shiftLeftCC dest left right => do
    let l ← readConst cf left
    let r ← readConst cf right
    binArith st dest l r Value.shiftLeft .shiftLeft
  | .shiftRightRR dest left right => do
    let l ← readReg st left
    let r ← readReg st right
    binArith st dest l r Value.shiftRight .shiftRight
  | .shiftRightRC dest left right => do
    let l ← readReg st left
    let r ← readConst cf right
    binArith st dest l r Value.shiftRight .shiftRight
  | .shiftRightCR dest left right => do
    let l ← readConst cf left
    let r ← readReg st right
    binArith st dest l r Value.shiftRight .shiftRight
  | .shiftRightCC dest left right => do
    let l ← readConst cf left
    let r ← readConst cf right
    binArith st dest l r Value.shiftRight .shiftRight

/-- The dispatcher loop of `run_vm` (the `loop` in the constant-registers
branch): fetch the opcode at pc (out of range is a Rust index panic), advance
pc, decrement the budget, execute; a `break`ing opcode or an exhausted budget
returns `Ok` with the instructions left.  The fuel pattern matches the
source exactly: the loop is always entered with a positive budget, the
decrement happens once per iteration, and the zero-fuel case is unreachable
(marked as the panic outcome). -/
def runLoop (cf : ClosureV) : VMState → Nat → VMOut (Nat × VMState)
  | _, 0 => .abort
  | st, n + 1 =>
    match cf.proto.opcodes.get? st.pc with
    | none => .abort
    | some op =>
      match execInstr cf { st with pc := st.pc + 1 } op with
      | .err e => .err e
      | .abort => .abort
      | .ok (st', true) => .ok (n, st')
      | .ok (st', false) =>
        if n = 0 then .ok (0, st') else runLoop cf st' n

/-- The variable stack-frame branch of `run_vm`: exactly one opcode is fetched
and it must be a varargs consumer, otherwise
`ThreadError::ExpectedVariable(false)` is returned. The frame-transfer calls
themselves are external (thread module, not under `src/`). -/
def runVariable (cf : ClosureV) (st : VMState) (instructions : Nat) :
    VMOut (Nat × VMState) :=
  match cf.proto.opcodes.get? st.pc with
  | none => .abort
  | some op =>
    let st' := { st with pc := st.pc + 1 }
    let left := instructions - 1
    match op with
    | .call _ _ _ => .ok (left, st')
    | .tailCall _ _ => .ok (left, st')
    | .ret _ _ => .ok (left, st')
    | .varArgs _ _ => .ok (left, st')
    | .genericForCall _ _ => .ok (left, st')
    | _ => .err (.expectedVariable false)

/-- The `run_vm`: run the dispatcher until the current frame may have changed,
at most `instructions` opcodes.  The leading `assert!(instructions != 0)` of
the source makes a zero budget a panic. -/
def runVm (cf : ClosureV) (st : VMState) (instructions : Nat) :
    VMOut (Nat × VMState) :=
  if instructions = 0 then .abort
  else if st.constReg then runLoop cf st instructions
  else runVariable cf st instructions

/-! ## Lexer (`src/lexer.rs`)

The byte stream is the remaining input list; `peek k` is `get?` and
`advance` is `drop`.  Loops are embedded with a fuel argument; every loop
iteration of the source consumes at least one input byte, so the wrappers
supply `input.length + 1` fuel and the zero-fuel outcome (the abnormal
`.abort`) is unreachable in any run started by a wrapper. -/

/-- Byte constants of `lexer.rs`. -/
def SPACE : Nat := 32
def NEWLINE : Nat := 10
def CARRIAGE_RETURN : Nat := 13
def HORIZONTAL_TAB : Nat := 9
def ALERT_BEEP : Nat := 7
def BACKSPACE : Nat := 8
def VERTICAL_TAB : Nat := 11
def FORM_FEED : Nat := 12
def LEFT_BRACKET : Nat := 91
def RIGHT_BRACKET : Nat := 93
def LEFT_BRACE : Nat := 123
def RIGHT_BRACE : Nat := 125
def EQUALS : Nat := 61
def LESS_THAN : Nat := 60
def GREATER_THAN : Nat := 62
def FORWARD_SLASH : Nat := 47
def BACKSLASH : Nat := 92
def TILDE : Nat := 126
def COLON : Nat := 58
def DOUBLE_QUOTE : Nat := 34
def SINGLE_QUOTE : Nat := 39
def PERIOD : Nat := 46
def MINUS : Nat := 45
def UNDERSCORE : Nat := 95

def isNewline (c : Nat) : Bool :=
  c = NEWLINE || c = CARRIAGE_RETURN

def isSpace (c : Nat) : Bool :=
  c = SPACE || c = HORIZONTAL_TAB || c = VERTICAL_TAB || c = FORM_FEED || isNewline c

/-- The `is_alpha`: `A`-`Z`, `a`-`z` and `_`. -/
def isAlpha (c : Nat) : Bool :=
  (97 ≤ c && c ≤ 122) || (65 ≤ c && c ≤ 90) || c = UNDERSCORE

def fromDigit (c : Nat) : Option Nat :=
  if 48 ≤ c ∧ c ≤ 57 then some (c - 48) else none

def isDigit (c : Nat) : Bool :=
  (fromDigit c).isSome

def fromHexDigit (c : Nat) : Option Nat :=
  if 48 ≤ c ∧ c ≤ 57 then some (c - 48)
  else if 97 ≤ c ∧ c ≤ 102 then some (10 + c - 97)
  else if 65 ≤ c ∧ c ≤ 70 then some (10 + c - 65)
  else none

/-- The lexical error causes of `lexer.rs` (the `err_msg` strings). -/
inductive LexError where
  | unfinishedShortString
  | hexDigitExpected
  | missingLeftBrace
  | missingRightBrace
  | invalidUtf8Value
  | decimalEscapeTooLarge
  | invalidEscapeSequence
  | unfinishedLongString
  | invalidLongStringDelimiter
  | unexpectedCharacter (c : Nat)
deriving DecidableEq

/-- Outcome of a lexer computation: a value, a lexical error, or abnormal
termination (a Rust panic — failed `assert!`/`unwrap`, the `unimplemented`
numeral routine — or fuel exhaustion, unreachable from the wrappers). -/
inductive LexRes (α : Type) where
  | ok (a : α)
  | err (e : LexError)
  | abort
deriving DecidableEq

instance : Monad LexRes where
  pure := LexRes.ok
  bind x f :=
    match x with
    | .ok a => f a
    | .err e => .err e
    | .abort => .abort

/-- The lexer state: the remaining input and the 0-origin line counter
(`Lexer::new` starts it at 0). -/
structure LexerSt where
  input : List Nat
  lineNumber : Nat
deriving DecidableEq

/-- The `LexerState::line_end`: consume one of `\n`, `\r`, `\n\r`, `\r\n` as a
single newline, incrementing the line counter by exactly one; when `emit` is
set the consumed bytes are pushed to `out` unchanged.  The `assert!`/`unwrap`
on a non-newline head is the panic outcome. -/
def lineEnd (st : LexerSt) (out : List Nat) (emit : Bool) :
    LexRes (LexerSt × List Nat) :=
  match st.input with
  | [] => .abort
  | c :: rest =>
    if isNewline c then
      let out1 := if emit then out ++ [c] else out
      match rest with
      | d :: rest2 =>
        if isNewline d ∧ d ≠ c then
          .ok (⟨rest2, st.lineNumber + 1⟩, if emit then out1 ++ [d] else out1)
        else .ok (⟨rest, st.lineNumber + 1⟩, out1)
      | [] => .ok (⟨[], st.lineNumber + 1⟩, out1)
    else .abort

/-- The `=`-counting loops of `long_string`: length of the `=` prefix and
the rest. -/
def countEquals (input : List Nat) : Nat × List Nat :=
  ((input.takeWhile (fun c => c = EQUALS)).length,
   input.dropWhile (fun c => c = EQUALS))

/-- The scanning loop of `LexerState::long_string`, entered after the open
delimiter `[` `=`^k `[` has been consumed. -/
def longStringF (emit : Bool) (k : Nat) :
    Nat → LexerSt → List Nat → LexRes (List Nat × LexerSt)
  | 0, _, _ => .abort
  | fuel + 1, st, out =>
    match st.input with
    | [] => .err .unfinishedLongString
    | c :: rest =>
      if isNewline c then
        match lineEnd st out emit with
        | .ok (st', out') => longStringF emit k fuel st' out'
        | .err e => .err e
        | .abort => .abort
      else if c = RIGHT_BRACKET then
        let j := (countEquals rest).1
        let rest' := (countEquals rest).2
        if k = j ∧ rest'.head? = some RIGHT_BRACKET then
          .ok (out, ⟨rest'.tail, st.lineNumber⟩)
        else
          longStringF emit k fuel ⟨rest', st.lineNumber⟩
            (if emit then out ++ RIGHT_BRACKET :: List.replicate j EQUALS else out)
      else
        longStringF emit k fuel ⟨rest, st.lineNumber⟩
          (if emit then out ++ [c] else out)

/-- The `LexerState::long_string`: read a `[=*[...]=*]` sequence with matching
numbers of `=`; when `emit` is unset (long comments) no output is produced. -/
def longString (emit : Bool) (st : LexerSt) : LexRes (List Nat × LexerSt) :=
  match st.input with
  | [] => .abort
  | c :: rest =>
    if c = LEFT_BRACKET then
      let k := (countEquals rest).1
      let rest1 := (countEquals rest).2
      match rest1 with
      | d :: rest2 =>
        if d = LEFT_BRACKET then
          longStringF emit k (rest2.length + 1) ⟨rest2, st.lineNumber⟩ []
        else .err .invalidLongStringDelimiter
      | [] => .err .invalidLongStringDelimiter
    else .abort

/-- UTF-8 encoding of a Unicode scalar value (`char::encode_utf8`). -/
def encodeUtf8 (u : Nat) : List Nat :=
  if u < 0x80 then [u]
  else if u < 0x800 then [0xC0 + u / 64, 0x80 + u % 64]
  else if u < 0x10000 then
    [0xE0 + u / 4096, 0x80 + u / 64 % 64, 0x80 + u % 64]
  else
    [0xF0 + u / 262144, 0x80 + u / 4096 % 64, 0x80 + u / 64 % 64, 0x80 + u % 64]

/-- The `char::from_u32` validity: a Unicode scalar value (below 0x110000 and not
a surrogate). -/
def validScalar (u : Nat) : Bool :=
  u < 0x110000 && !(0xD800 ≤ u && u < 0xE000)

/-- The hex-digit loop of the `\u{...}` escape: accumulate digits (`u32`
arithmetic, so modulo 2^32) until the closing brace. -/
def uEscapeLoop : Nat → Nat → LexerSt → LexRes (Nat × LexerSt)
  | 0, _, _ => .abort
  | fuel + 1, u, st =>
    match st.input with
    | [] => .err .missingRightBrace
    | c :: rest =>
      if c = RIGHT_BRACE then .ok (u, ⟨rest, st.lineNumber⟩)
      else
        match fromHexDigit c with
        | some h => uEscapeLoop fuel ((u * 16 + h) % 2 ^ 32) ⟨rest, st.lineNumber⟩
        | none => .err .missingRightBrace

/-- The whitespace-skipping loop of the `\z` escape. -/
def zEscapeLoop : Nat → LexerSt → LexRes LexerSt
  | 0, _ => .abort
  | fuel + 1, st =>
    match st.input with
    | [] => .ok st
    | c :: rest =>
      if isNewline c then
        match lineEnd st [] false with
        | .ok (st', _) => zEscapeLoop fuel st'
        | .err e => .err e
        | .abort => .abort
      else if isSpace c then zEscapeLoop fuel ⟨rest, st.lineNumber⟩
      else .ok st

/-- The up-to-three-digit loop of the decimal `\DDD` escape. -/
def decEscapeLoop : Nat → Nat → List Nat → Nat × List Nat
  | 0, u, rest => (u, rest)
  | n + 1, u, rest =>
    match rest with
    | c :: r =>
      match fromDigit c with
      | some d => decEscapeLoop n (10 * u + d) r
      | none => (u, c :: r)
    | [] => (u, [])

/-- The scanning loop of `LexerState::short_string`, entered after the open
quote `q` has been consumed. -/
def shortStringF (q : Nat) :
    Nat → LexerSt → List Nat → LexRes (List Nat × LexerSt)
  | 0, _, _ => .abort
  | fuel + 1, st, out =>
    match st.input with
    | [] => .err .unfinishedShortString
    | c :: rest =>
      if isNewline c then .err .unfinishedShortString
      else if c = BACKSLASH then
        match rest with
        | [] => .err .unfinishedShortString
        | e :: rest1 =>
          if e = 97 then shortStringF q fuel ⟨rest1, st.lineNumber⟩ (out ++ [ALERT_BEEP])
          else if e = 98 then shortStringF q fuel ⟨rest1, st.lineNumber⟩ (out ++ [BACKSPACE])
          else if e = 102 then shortStringF q fuel ⟨rest1, st.lineNumber⟩ (out ++ [FORM_FEED])
          else if e = 110 then shortStringF q fuel ⟨rest1, st.lineNumber⟩ (out ++ [NEWLINE])
          else if e = 114 then shortStringF q fuel ⟨rest1, st.lineNumber⟩ (out ++ [CARRIAGE_RETURN])
          else if e = 116 then shortStringF q fuel ⟨rest1, st.lineNumber⟩ (out ++ [HORIZONTAL_TAB])
          else if e = 118 then shortStringF q fuel ⟨rest1, st.lineNumber⟩ (out ++ [VERTICAL_TAB])
          else if e = BACKSLASH then shortStringF q fuel ⟨rest1, st.lineNumber⟩ (out ++ [BACKSLASH])
          else if e = SINGLE_QUOTE then shortStringF q fuel ⟨rest1, st.lineNumber⟩ (out ++ [SINGLE_QUOTE])
          else if e = DOUBLE_QUOTE then shortStringF q fuel ⟨rest1, st.lineNumber⟩ (out ++ [DOUBLE_QUOTE])
          else if isNewline e then
            match lineEnd ⟨e :: rest1, st.lineNumber⟩ out true with
            | .ok (st', out') => shortStringF q fuel st' out'
            | .err er => .err er
            | .abort => .abort
          else if e = 120 then
            match rest1 with
            | h1 :: h2 :: rest2 =>
              match fromHexDigit h1, fromHexDigit h2 with
              | some a, some b =>
                shortStringF q fuel ⟨rest2, st.lineNumber⟩ (out ++ [a * 16 + b])
              | _, _ => .err .hexDigitExpected
            | _ => .err .hexDigitExpected
          else if e = 117 then
            if rest1.head? ≠ some LEFT_BRACE then .err .missingLeftBrace
            else
              match uEscapeLoop (rest1.tail.length + 1) 0 ⟨rest1.tail, st.lineNumber⟩ with
              | .ok (u, st') =>
                if validScalar u then
                  shortStringF q fuel st' (out ++ encodeUtf8 u)
                else .err .invalidUtf8Value
              | .err er => .err er
              | .abort => .abort
          else if e = 122 then
            match zEscapeLoop (rest1.length + 1) ⟨rest1, st.lineNumber⟩ with
            | .ok st' => shortStringF q fuel st' out
            | .err er => .err er
            | .abort => .abort
          else if isDigit e then
            let u := (decEscapeLoop 3 0 (e :: rest1)).1
            let rest2 := (decEscapeLoop 3 0 (e :: rest1)).2
            if u > 255 then .err .decimalEscapeTooLarge
            else shortStringF q fuel ⟨rest2, st.lineNumber⟩ (out ++ [u])
          else .err .invalidEscapeSequence
      else if c = q then .ok (out, ⟨rest, st.lineNumber⟩)
      else shortStringF q fuel ⟨rest, st.lineNumber⟩ (out ++ [c])

/-- The `LexerState::short_string`: a quote-delimited single-line string. -/
def shortString (st : LexerSt) : LexRes (List Nat × LexerSt) :=
  match st.input with
  | [] => .abort
  | c :: rest =>
    if c = SINGLE_QUOTE ∨ c = DOUBLE_QUOTE then
      shortStringF c (rest.length + 1) ⟨rest, st.lineNumber⟩ []
    else .abort

/-- The `LexerState::comment`: `--` to end of line, or `--` followed by a long
bracket. -/
def comment (st : LexerSt) : LexRes LexerSt :=
  match st.input with
  | c1 :: c2 :: rest =>
    if c1 = MINUS ∧ c2 = MINUS then
      if rest.head? = some LEFT_BRACKET then
        match longString false ⟨rest, st.lineNumber⟩ with
        | .ok (_, st') => .ok st'
        | .err e => .err e
        | .abort => .abort
      else .ok ⟨rest.dropWhile (fun c => !isNewline c), st.lineNumber⟩
    else .abort
  | _ => .abort

/-- The `LexerState::skip_whitespace`. -/
def skipWhitespaceF : Nat → LexerSt → LexRes LexerSt
  | 0, _ => .abort
  | fuel + 1, st =>
    match st.input with
    | [] => .ok st
    | c :: rest =>
      if c = SPACE ∨ c = HORIZONTAL_TAB ∨ c = VERTICAL_TAB ∨ c = FORM_FEED then
        skipWhitespaceF fuel ⟨rest, st.lineNumber⟩
      else if isNewline c then
        match lineEnd st [] false with
        | .ok (st', _) => skipWhitespaceF fuel st'
        | .err e => .err e
        | .abort => .abort
      else if c = MINUS then
        if rest.head? ≠ some MINUS then .ok st
        else
          match comment st with
          | .ok st' => skipWhitespaceF fuel st'
          | .err e => .err e
          | .abort => .abort
      else .ok st

def skipWhitespace (st : LexerSt) : LexRes LexerSt :=
  skipWhitespaceF (st.input.length + 1) st

/-- The token set of `lexer.rs` (keyword constructors carry a `kw` prefix to
avoid Lean keywords; numerals are `Int`/`Rat` for `i64`/`f64`). -/
inductive Token where
  | kwBreak | kwDo | kwElse | kwElseIf | kwEnd | kwFunction | kwGoto | kwIf
  | kwIn | kwLocal | kwNil | kwFor | kwWhile | kwRepeat | kwUntil | kwReturn
  | kwThen | kwTrue | kwFalse | kwNot | kwAnd | kwOr
  | plus | minus | times | div | idiv | pow | mod | bitAnd | bitNot | bitOr
  | shiftRight | shiftLeft | dot | concat | dots | assign | less | lessEqual
  | greater | greaterEqual | equal | notEqual | colon | doubleColon | len
  | leftBracket | rightBracket | leftBrace | rightBrace
  | number (n : Rat)
  | integer (i : Int)
  | name (s : List Nat)
  | string (s : List Nat)

/-- Byte sequence of an ASCII string literal, for the keyword table. -/
def bytesOf (s : String) : List Nat :=
  s.toList.map Char.toNat

/-- The `SINGLE_CHAR_TOKENS`. -/
def singleCharTokens : List (Nat × Token) :=
  [(43, .plus), (45, .minus), (42, .times), (94, .pow), (37, .mod),
   (38, .bitAnd), (124, .bitOr), (35, .len), (93, .rightBracket),
   (123, .leftBrace), (125, .rightBrace)]

/-- The `RESERVED_WORDS`. -/
def reservedWords : List (List Nat × Token) :=
  [(bytesOf "break", .kwBreak), (bytesOf "do", .kwDo), (bytesOf "else", .kwElse),
   (bytesOf "elseif", .kwElseIf), (bytesOf "end", .kwEnd),
   (bytesOf "function", .kwFunction), (bytesOf "goto", .kwGoto),
   (bytesOf "if", .kwIf), (bytesOf "in", .kwIn), (bytesOf "local", .kwLocal),
   (bytesOf "nil", .kwNil), (bytesOf "for", .kwFor), (bytesOf "while", .kwWhile),
   (bytesOf "repeat", .kwRepeat), (bytesOf "until", .kwUntil),
   (bytesOf "return", .kwReturn), (bytesOf "then", .kwThen),
   (bytesOf "true", .kwTrue), (bytesOf "false", .kwFalse),
   (bytesOf "not", .kwNot), (bytesOf "and", .kwAnd), (bytesOf "or", .kwOr)]

def lookupToken (m : List (Nat × Token)) (c : Nat) : Option Token :=
  match m.find? (fun e => e.1 = c) with
  | some e => some e.2
  | none => none

def lookupWord (m : List (List Nat × Token)) (w : List Nat) : Option Token :=
  match m.find? (fun e => e.1 = w) with
  | some e => some e.2
  | none => none

/-- The `LexerState::lex`: scan one token (or `none` at end of input and on the
whitespace branches, which are unreachable after `skip_whitespace`).  The
`numeral` routine of the source is `unimplemented!()`, hence the panic
outcome on the digit branches. -/
def lex (st : LexerSt) : LexRes (Option Token × LexerSt) :=
  match st.input with
  | [] => .ok (none, st)
  | c :: rest =>
    if c = SPACE ∨ c = HORIZONTAL_TAB ∨ c = VERTICAL_TAB ∨ c = FORM_FEED then
      .ok (none, ⟨rest, st.lineNumber⟩)
    else if isNewline c then
      match lineEnd st [] false with
      | .ok (st', _) => .ok (none, st')
      | .err e => .err e
      | .abort => .abort
    else if c = MINUS then
      if rest.head? ≠ some MINUS then .ok (some .minus, ⟨rest, st.lineNumber⟩)
      else
        match comment st with
        | .ok st' => .ok (none, st')
        | .err e => .err e
        | .abort => .abort
    else if c = LEFT_BRACKET then
      if rest.head? = some EQUALS ∨ rest.head? = some LEFT_BRACKET then
        match longString true st with
        | .ok (out, st') => .ok (some (.string out), st')
        | .err e => .err e
        | .abort => .abort
      else .ok (some .leftBracket, ⟨rest, st.lineNumber⟩)
    else if c = EQUALS then
      if rest.head? = some EQUALS then .ok (some .equal, ⟨rest.tail, st.lineNumber⟩)
      else .ok (some .assign, ⟨rest, st.lineNumber⟩)
    else if c = LESS_THAN then
      if rest.head? = some EQUALS then .ok (some .lessEqual, ⟨rest.tail, st.lineNumber⟩)
      else if rest.head? = some LESS_THAN then .ok (some .shiftLeft, ⟨rest.tail, st.lineNumber⟩)
      else .ok (some .less, ⟨rest, st.lineNumber⟩)
    else if c = GREATER_THAN then
      if rest.head? = some EQUALS then .ok (some .greaterEqual, ⟨rest.tail, st.lineNumber⟩)
      else if rest.head? = some GREATER_THAN then .ok (some .shiftRight, ⟨rest.tail, st.lineNumber⟩)
      else .ok (some .greater, ⟨rest, st.lineNumber⟩)
    else if c = FORWARD_SLASH then
      if rest.head? = some FORWARD_SLASH then .ok (some .idiv, ⟨rest.tail, st.lineNumber⟩)
      else .ok (some .div, ⟨rest, st.lineNumber⟩)
    else if c = TILDE then
      if rest.head? = some EQUALS then .ok (some .notEqual, ⟨rest.tail, st.lineNumber⟩)
      else .ok (some .bitNot, ⟨rest, st.lineNumber⟩)
    else if c = COLON then
      if rest.head? = some COLON then .ok (some .doubleColon, ⟨rest.tail, st.lineNumber⟩)
      else .ok (some .colon, ⟨rest, st.lineNumber⟩)
    else if c = DOUBLE_QUOTE ∨ c = SINGLE_QUOTE then
      match shortString st with
      | .ok (out, st') => .ok (some (.string out), st')
      | .err e => .err e
      | .abort => .abort
    else if c = PERIOD then
      if rest.head? = some PERIOD then
        if rest.tail.head? = some PERIOD then .ok (some .dots, ⟨rest.tail.tail, st.lineNumber⟩)
        else .ok (some .concat, ⟨rest.tail, st.lineNumber⟩)
      else if (rest.head?.map isDigit).getD false then .abort
      else .ok (some .dot, ⟨rest, st.lineNumber⟩)
    else if isDigit c then .abort
    else
      match lookupToken singleCharTokens c with
      | some t => .ok (some t, ⟨rest, st.lineNumber⟩)
      | none =>
        if isAlpha c then
          let w := (c :: rest).takeWhile (fun b => isAlpha b || isDigit b)
          let rest' := (c :: rest).dropWhile (fun b => isAlpha b || isDigit b)
          match lookupWord reservedWords w with
          | some t => .ok (some t, ⟨rest', st.lineNumber⟩)
          | none => .ok (some (.name w), ⟨rest', st.lineNumber⟩)
        else .err (.unexpectedCharacter c)

/-- The `NextToken` of `lexer.rs`: a token with the 0-indexed line it begins on,
or the end of the stream. -/
inductive NextToken where
  | next (t : Token) (lineNumber : Nat)
  | done

/-- The `Lexer::new`: the fresh lexer over an input, line counter 0. -/
def lexerNew (input : List Nat) : LexerSt :=
  ⟨input, 0⟩

/-- The `Lexer::next`: skip whitespace, remember the line number, scan one
token. -/
def lexerNext (st : LexerSt) : LexRes (NextToken × LexerSt) := do
  let st1 ← skipWhitespace st
  let ln := st1.lineNumber
  let (t, st2) ← lex st1
  match t with
  | some tok => pure (.next tok ln, st2)
  | none => pure (.done, st2)

/-! ## Claim fixtures -/

/-- A closure whose constant pool holds two Nil constants (so that both the
register and the constant operand forms fetch a non-coercible operand). -/
def nilCf : ClosureV :=
  ⟨.mk [] [.nil, .nil] [] [], []⟩

/-- A three-register frame of Nil values, pc already advanced past the
opcode under test. -/
def nilSt : VMState :=
  ⟨1, [.nil, .nil, .nil], [], [], [], true⟩

/-- The binary arithmetic, bitwise and comparison opcode families of `run_vm`
that can fail on non-coercible operands (`Eq*` is total and cannot fail). -/
inductive BinFamily where
  | fadd | fsub | fmul | fdiv | fidiv | fmod | fpow
  | fband | fbor | fbxor | fshl | fshr | fless | flessEq
deriving DecidableEq, Fintype

/-- The four operand modes of each binary family. -/
inductive OperandMode where
  | rr | rc | cr | cc
deriving DecidableEq, Fintype

/-- The opcode of a family in a given operand mode, at destination register 2
and operand indices 0 and 1. -/
def mkBinOp : BinFamily → OperandMode → OpCode
  | .fadd, .rr => .addRR 2 0 1
  | .fadd, .rc => .addRC 2 0 1
  | .fadd, .cr => .addCR 2 0 1
  | .fadd, .cc => .addCC 2 0 1
  | .fsub, .rr => .subRR 2 0 1
  | .fsub, .rc => .subRC 2 0 1
  | .fsub, .cr => .subCR 2 0 1
  | .fsub, .cc => .subCC 2 0 1
  | .fmul, .rr => .mulRR 2 0 1
  | .fmul, .rc => .mulRC 2 0 1
  | .fmul, .cr => .mulCR 2 0 1
  | .fmul, .cc => .mulCC 2 0 1
  | .fdiv, .rr => .divRR 2 0 1
  | .fdiv, .rc => .divRC 2 0 1
  | .fdiv, .cr => .divCR 2 0 1
  | .fdiv, .cc => .divCC 2 0 1
  | .fidiv, .rr => .idivRR 2 0 1
  | .fidiv, .rc => .idivRC 2 0 1
  | .fidiv, .cr => .idivCR 2 0 1
  | .fidiv, .cc => .idivCC 2 0 1
  | .fmod, .rr => .modRR 2 0 1
  | .fmod, .rc => .modRC 2 0 1
  | .fmod, .cr => .modCR 2 0 1
  | .fmod, .cc => .modCC 2 0 1
  | .fpow, .rr => .powRR 2 0 1
  | .fpow, .rc => .powRC 2 0 1
  | .fpow, .cr => .powCR 2 0 1
  | .fpow, .cc => .powCC 2 0 1
  | .fband, .rr => .bitAndRR 2 0 1
  | .fband, .rc => .bitAndRC 2 0 1
  | .fband, .cr => .bitAndCR 2 0 1
  | .fband, .cc => .bitAndCC 2 0 1
  | .fbor, .rr => .bitOrRR 2 0 1
  | .fbor, .rc => .bitOrRC 2 0 1
  | .fbor, .cr => .bitOrCR 2 0 1
  | .fbor, .cc => .bitOrCC 2 0 1
  | .fbxor, .rr => .bitXorRR 2 0 1
  | .fbxor, .rc => .bitXorRC 2 0 1
  | .fbxor, .cr => .bitXorCR 2 0 1
  | .fbxor, .cc => .bitXorCC 2 0 1
  | .fshl, .rr => .shiftLeftRR 2 0 1
  | .fshl, .rc => .shiftLeftRC 2 0 1
  | .fshl, .cr => .shiftLeftCR 2 0 1
  | .fshl, .cc => .shiftLeftCC 2 0 1
  | .fshr, .rr => .shiftRightRR 2 0 1
  | .fshr, .rc => .shiftRightRC 2 0 1
  | .fshr, .cr => .shiftRightCR 2 0 1
  | .fshr, .cc => .shiftRightCC 2 0 1
  | .fless, .rr => .lessRR true 0 1
  | .fless, .rc => .lessRC true 0 1
  | .fless, .cr => .lessCR true 0 1
  | .fless, .cc => .lessCC true 0 1
  | .flessEq, .rr => .lessEqRR true 0 1
  | .flessEq, .rc => .lessEqRC true 0 1
  | .flessEq, .cr => .lessEqCR true 0 1
  | .flessEq, .cc => .lessEqCC true 0 1

/-- The kind-specific error of each family, per the spec's taxonomy ("the
operation fails with the kind-specific error"). -/
def kindErr : BinFamily → BinaryOperatorError
  | .fadd => .add
  | .fsub => .subtract
  | .fmul => .multiply
  | .fdiv => .floatDivide
  | .fidiv => .floorDivide
  | .fmod => .modulo
  | .fpow => .exponentiate
  | .fband => .bitAnd
  | .fbor => .bitOr
  | .fbxor => .bitXor
  | .fshl => .shiftLeft
  | .fshr => .shiftRight
  | .fless => .lessThan
  | .flessEq => .lessEqual

/-- The error the dispatcher actually reports for a failing opcode of the
family/mode: kind-specific except `SubRR`, which reports the addition
error. -/
def reportedErr (f : BinFamily) (m : OperandMode) : BinaryOperatorError :=
  if f = .fsub ∧ m = .rr then .add else kindErr f

/-! ## Theorems -/

/-- C1 (counterexample): with a zero instruction budget, `run_vm` terminates
abnormally (the leading `assert!(instructions != 0)` fails) at a concrete
thread state; in particular it does not return with the full budget
remaining. -/
theorem C1_budget_zero_cex :
    runVm nilCf nilSt 0 = .abort ∧ ∀ r, runVm nilCf nilSt 0 ≠ .ok r :=
  ⟨rfl, fun _ h => nomatch h⟩

/-- C1 (amended): a zero instruction budget is not permitted: for every
closure and machine state, `run_vm` called with budget 0 panics on its
leading assertion instead of returning. -/
theorem C1_budget_zero_aborts (cf : ClosureV) (st : VMState) :
    runVm cf st 0 = .abort :=
  rfl

/-- C2 (counterexample): a failing `SubRR` opcode (both operands Nil, hence
non-coercible) reports the *addition* error, not the subtraction error the
claim requires. -/
theorem C2_subRR_reports_add_cex :
    (execInstr nilCf nilSt (.subRR 2 0 1)).errOf = some (.binOp .add) ∧
      BinaryOperatorError.add ≠ BinaryOperatorError.subtract :=
  ⟨rfl, by decide⟩

/-- C2 (amended): on non-coercible operands (Nil here), every arithmetic,
bitwise and comparison opcode reports its kind-specific error, with exactly
two exceptions: `SubRR` reports the addition error, and `BitNot` reports the
unary-negation error (the error enumeration has no bitwise-complement
variant).  `Minus` reports unary negation as its own kind. -/
theorem C2_error_kinds :
    (∀ f m, (execInstr nilCf nilSt (mkBinOp f m)).errOf =
        some (.binOp (reportedErr f m))) ∧
    (execInstr nilCf nilSt (.minus 2 0)).errOf = some (.binOp .unaryNegate) ∧
    (execInstr nilCf nilSt (.bitNot 2 0)).errOf = some (.binOp .unaryNegate) ∧
    (∀ f m, reportedErr f m = kindErr f ↔ ¬(f = .fsub ∧ m = .rr)) := by
  refine ⟨by decide, rfl, rfl, by decide⟩

/-- The `Concat` source slice of a frame whose register 0 is the destination
and whose registers `1 .. count` hold the elements. -/
theorem readSlice_cons (v : Value) (vs : List Value) (pc : Nat)
    (ts : List LuaTable) (cs : List ClosureV) (us : List UpCell) (b : Bool) :
    readSlice ⟨pc, v :: vs, ts, cs, us, b⟩ 1 vs.length = .ok vs := by
  simp [readSlice, Nat.add_comm 1 vs.length]

/-- The `strConcat` fails exactly when some element fails per-element coercion. -/
theorem strConcat_eq_none_iff (vs : List Value) :
    strConcat vs = none ↔ ∃ v ∈ vs, coerceToBytes v = none := by
  induction vs with
  | nil => simp [strConcat]
  | cons v vs ih =>
    constructor
    · intro h
      cases hc : coerceToBytes v with
      | none => exact ⟨v, List.mem_cons_self v vs, hc⟩
      | some b =>
        cases hs : strConcat vs with
        | none =>
          obtain ⟨w, hw, hwc⟩ := ih.mp hs
          exact ⟨w, List.mem_cons_of_mem v hw, hwc⟩
        | some s => simp [strConcat, hc, hs] at h
    · rintro ⟨w, hw, hwc⟩
      rcases List.mem_cons.mp hw with rfl | hw'
      · simp [strConcat, hwc]
      · cases hc : coerceToBytes v with
        | none => simp [strConcat, hc]
        | some b =>
          have hn : strConcat vs = none := ih.mpr ⟨w, hw', hwc⟩
          simp [strConcat, hc, hn]

/-- C3 (counterexample): a `Concat` over a register holding Nil terminates
abnormally (the `unwrap` of `String::concat` panics); it does not return an
error value. -/
theorem C3_concat_nil_aborts_cex :
    execInstr nilCf ⟨1, [.nil, .nil], [], [], [], true⟩ (.concat 0 1 1) = .abort ∧
      ∀ e, execInstr nilCf ⟨1, [.nil, .nil], [], [], [], true⟩ (.concat 0 1 1) ≠
        .err e :=
  ⟨rfl, fun _ h => nomatch h⟩

/-- C3 (amended): executing `Concat` over the `count` registers starting at
`source`: when some element is neither String nor Number/Integer the VM
terminates abnormally (the `unwrap` panic) rather than returning an error;
when every element coerces, the destination receives the concatenation as a
String. -/
theorem C3_concat_behaviour (vs : List Value) :
    (strConcat vs = none →
      execInstr nilCf ⟨1, Value.nil :: vs, [], [], [], true⟩
        (.concat 0 1 vs.length) = .abort) ∧
    (∀ s, strConcat vs = some s →
      execInstr nilCf ⟨1, Value.nil :: vs, [], [], [], true⟩
        (.concat 0 1 vs.length) =
        .ok (⟨1, Value.str s :: vs, [], [], [], true⟩, false)) ∧
    (strConcat vs = none ↔ ∃ v ∈ vs, coerceToBytes v = none) := by
  refine ⟨fun h => ?_, fun s h => ?_, strConcat_eq_none_iff vs⟩
  · simp [execInstr, readSlice_cons, List.take_length, h]
  · simp [execInstr, readSlice_cons, List.take_length, h, writeReg,
      Nat.succ_pos, Bind.bind]

/-- C3 (witness): the amended claim at `[Nil]` (aborts) and at a singleton
String (concatenates). -/
theorem C3_concat_behaviour_witness :
    execInstr nilCf ⟨1, [.nil, .nil], [], [], [], true⟩ (.concat 0 1 1) =
      .abort ∧
    execInstr nilCf ⟨1, [.nil, .str [97]], [], [], [], true⟩ (.concat 0 1 1) =
      .ok (⟨1, [.str [97], .str [97]], [], [], [], true⟩, false) :=
  ⟨(C3_concat_behaviour [.nil]).1 rfl,
   (C3_concat_behaviour [.str [97]]).2.1 [97] rfl⟩

/-- C4 (counterexample): a `Length` opcode whose source register holds the
String "ab" returns the table type error — the destination does not receive
the byte length 2. -/
theorem C4_length_string_cex :
    execInstr nilCf ⟨1, [.str [97, 98], .nil], [], [], [], true⟩ (.length 1 0) =
      .err (.typeError "table" "string") ∧
    ∀ r, execInstr nilCf ⟨1, [.str [97, 98], .nil], [], [], [], true⟩
      (.length 1 0) ≠ .ok r :=
  ⟨rfl, fun _ h => nomatch h⟩

/-- C4 (amended): `Length` writes the table length when the source holds a
Table, and fails with the table `TypeError` for every other value — including
Strings, whose byte length it does not return. -/
theorem C4_length_behaviour (t : LuaTable) (v : Value)
    (h : ∀ id, v ≠ .table id) :
    execInstr nilCf ⟨1, [.table 0, .nil], [t], [], [], true⟩ (.length 1 0) =
      .ok (⟨1, [.table 0, .integer t.length], [t], [], [], true⟩, false) ∧
    execInstr nilCf ⟨1, [v, .nil], [], [], [], true⟩ (.length 1 0) =
      .err (.typeError "table" v.typeName) := by
  constructor
  · rfl
  · cases v with
    | table id => exact absurd rfl (h id)
    | _ => rfl

/-- C4 (witness): the amended claim at a one-entry table (length 1) and at
the String "ab". -/
theorem C4_length_behaviour_witness :
    execInstr nilCf ⟨1, [.table 0, .nil], [⟨[(.integer 1, .integer 7)]⟩], [],
      [], true⟩ (.length 1 0) =
      .ok (⟨1, [.table 0, .integer 1], [⟨[(.integer 1, .integer 7)]⟩], [], [],
        true⟩, false) ∧
    execInstr nilCf ⟨1, [.str [97, 98], .nil], [], [], [], true⟩ (.length 1 0) =
      .err (.typeError "table" "string") :=
  C4_length_behaviour ⟨[(.integer 1, .integer 7)]⟩ (.str [97, 98])
    (fun _ h => nomatch h)

/-- C5 (counterexample): lexing the long string `[[a<CR>b]]` yields the
payload `a\rb` — the carriage return is *not* normalized to `\n` (0x0A). -/
theorem C5_carriage_return_not_normalized_cex :
    lexerNext (lexerNew [91, 91, 97, 13, 98, 93, 93]) =
      .ok (.next (.string [97, 13, 98]) 0, ⟨[], 1⟩) ∧
    [97, 13, 98] ≠ [97, 10, 98] :=
  ⟨rfl, by decide⟩

/-- C5 (amended): inside a long string literal each newline sequence (`\n`,
`\r`, `\n\r`, `\r\n`) is consumed as one line increment but its bytes are
emitted into the payload *verbatim*, not normalized to `\n`: `line_end`
appends exactly the one or two bytes it consumes, and the four sequences
produce the payloads `a\nb`, `a\rb`, `a\n\rb`, `a\r\nb` respectively. -/
theorem C5_newlines_verbatim (input : List Nat) (ln : Nat) (out : List Nat)
    (h : (input.head?.map isNewline).getD false = true) :
    (∃ n, 1 ≤ n ∧ n ≤ 2 ∧
      lineEnd ⟨input, ln⟩ out true =
        .ok (⟨input.drop n, ln + 1⟩, out ++ input.take n)) ∧
    lexerNext (lexerNew [91, 91, 97, 10, 98, 93, 93]) =
      .ok (.next (.string [97, 10, 98]) 0, ⟨[], 1⟩) ∧
    lexerNext (lexerNew [91, 91, 97, 13, 98, 93, 93]) =
      .ok (.next (.string [97, 13, 98]) 0, ⟨[], 1⟩) ∧
    lexerNext (lexerNew [91, 91, 97, 10, 13, 98, 93, 93]) =
      .ok (.next (.string [97, 10, 13, 98]) 0, ⟨[], 1⟩) ∧
    lexerNext (lexerNew [91, 91, 97, 13, 10, 98, 93, 93]) =
      .ok (.next (.string [97, 13, 10, 98]) 0, ⟨[], 1⟩) := by
  refine ⟨?_, rfl, rfl, rfl, rfl⟩
  cases input with
  | nil => simp at h
  | cons c rest =>
    simp at h
    cases rest with
    | nil =>
      exact ⟨1, by decide, by decide, by simp [lineEnd, h]⟩
    | cons d rest2 =>
      by_cases hd : isNewline d ∧ d ≠ c
      · exact ⟨2, by decide, by decide, by simp [lineEnd, h, hd]⟩
      · exact ⟨1, by decide, by decide, by simp [lineEnd, h, hd]⟩

/-- C5 (witness): `line_end` on the pair `\r\n` followed by `c` appends the
two raw bytes to the output. -/
theorem C5_newlines_verbatim_witness :
    ∃ n, 1 ≤ n ∧ n ≤ 2 ∧
      lineEnd ⟨[13, 10, 99], 0⟩ [97] true =
        .ok (⟨[13, 10, 99].drop n, 0 + 1⟩, [97] ++ [13, 10, 99].take n) :=
  (C5_newlines_verbatim [13, 10, 99] 0 [97] rfl).1

/-- The `=`-counting loop on a run of `j` equals signs followed by input not
starting with `=`. -/
theorem countEquals_replicate (j : Nat) (rest : List Nat)
    (h : rest.head? ≠ some EQUALS) :
    countEquals (List.replicate j EQUALS ++ rest) = (j, rest) := by
  have htake : List.takeWhile (fun c => decide (c = EQUALS))
      (List.replicate j EQUALS ++ rest) = List.replicate j EQUALS := by
    induction j with
    | zero =>
      cases rest with
      | nil => rfl
      | cons a t =>
        have ha : ¬a = EQUALS := fun ha => h (by simp [ha])
        simp [List.takeWhile_cons, ha]
    | succ j ih => simp [List.replicate_succ, List.takeWhile_cons, ih]
  have hdrop : List.dropWhile (fun c => decide (c = EQUALS))
      (List.replicate j EQUALS ++ rest) = rest := by
    clear htake
    induction j with
    | zero =>
      cases rest with
      | nil => rfl
      | cons a t =>
        have ha : ¬a = EQUALS := fun ha => h (by simp [ha])
        simp [List.dropWhile_cons, ha]
    | succ j ih => simp [List.replicate_succ, List.dropWhile_cons, ih]
  simp [countEquals, htake, hdrop]

/-- C6: a close-bracket run `]` `=`^j within a long string that does not
match the opening delimiter (wrong count of `=` signs, or not terminated by a
second `]`) is emitted into the output literally and scanning continues from
the rest; and lexing `[==[abc]=]def]==]` produces exactly one String token
with payload `abc]=]def` (nine bytes), the input being exhausted. -/
theorem C6_long_string_close_run (k j fuel ln : Nat) (rest out : List Nat)
    (h1 : rest.head? ≠ some EQUALS)
    (h2 : k = j → rest.head? ≠ some RIGHT_BRACKET) :
    longStringF true k (fuel + 1)
        ⟨RIGHT_BRACKET :: (List.replicate j EQUALS ++ rest), ln⟩ out =
      longStringF true k fuel ⟨rest, ln⟩
        (out ++ RIGHT_BRACKET :: List.replicate j EQUALS) ∧
    lexerNext (lexerNew (bytesOf "[==[abc]=]def]==]")) =
      .ok (.next (.string (bytesOf "abc]=]def")) 0, ⟨[], 0⟩) ∧
    lexerNext (⟨[], 0⟩ : LexerSt) = .ok (.done, ⟨[], 0⟩) := by
  refine ⟨?_, rfl, rfl⟩
  have hm : ¬(k = j ∧ rest.head? = some RIGHT_BRACKET) := by
    rintro ⟨rfl, hh⟩
    exact h2 rfl hh
  simp only [longStringF, countEquals_replicate j rest h1]
  simp only [show isNewline RIGHT_BRACKET = false from rfl]
  simp [hm]

/-- C6 (witness): with open delimiter count 2, the run `]=` followed by `d`
is emitted literally (`abc` already scanned, output becomes `abc]=`). -/
theorem C6_long_string_close_run_witness :
    longStringF true 2 2 ⟨[93, 61, 100], 0⟩ [97, 98, 99] =
      longStringF true 2 1 ⟨[100], 0⟩ [97, 98, 99, 93, 61] :=
  (C6_long_string_close_run 2 1 1 0 [100] [97, 98, 99] (by decide)
    (fun h => nomatch h)).1

/-- C9: the lexer's line numbering is 0-origin: a fresh lexer starts its line
counter at 0, `line_end` increments it by exactly one per newline sequence
consumed, a token on the first line is reported at line number 0, and after
the two newline sequences `\n` and `\r\n` a token is reported at line 2. -/
theorem C9_line_numbers :
    (∀ input, (lexerNew input).lineNumber = 0) ∧
    (∀ input ln out emit st' o',
      lineEnd ⟨input, ln⟩ out emit = .ok (st', o') →
        st'.lineNumber = ln + 1) ∧
    lexerNext (lexerNew [43]) = .ok (.next .plus 0, ⟨[], 0⟩) ∧
    lexerNext (lexerNew [10, 13, 10, 32, 43]) =
      .ok (.next .plus 2, ⟨[], 2⟩) := by
  refine ⟨fun _ => rfl, ?_, rfl, rfl⟩
  intro input ln out emit st' o' h
  cases input with
  | nil => exact absurd h (by simp [lineEnd])
  | cons c rest =>
    cases hc : isNewline c with
    | false => simp [lineEnd, hc] at h
    | true =>
      cases rest with
      | nil =>
        simp [lineEnd, hc] at h
        obtain ⟨h1, -⟩ := h
        subst h1
        rfl
      | cons d rest2 =>
        by_cases hd : isNewline d ∧ d ≠ c
        · simp [lineEnd, hc, hd] at h
          obtain ⟨h1, -⟩ := h
          subst h1
          rfl
        · simp [lineEnd, hc, hd] at h
          obtain ⟨h1, -⟩ := h
          subst h1
          rfl

/-- C9 (witness): `line_end` applied at line 5 to input starting `\n` leaves
the counter at exactly 6. -/
theorem C9_line_numbers_witness :
    (⟨[99], 6⟩ : LexerSt).lineNumber = 5 + 1 :=
  C9_line_numbers.2.1 [10, 99] 5 [] false ⟨[99], 6⟩ [] rfl

/-- C10: the escape `\u{}` (zero hex digits) inside a short string literal
succeeds and appends exactly the single byte 0x00, both as a step of the
short-string scanner at any position and end to end on the literal
`"\u{}"`. -/
theorem C10_u_escape_empty :
    (∀ q fuel ln rest out,
      shortStringF q (fuel + 1) ⟨92 :: 117 :: 123 :: 125 :: rest, ln⟩ out =
        shortStringF q fuel ⟨rest, ln⟩ (out ++ [0])) ∧
    lexerNext (lexerNew [34, 92, 117, 123, 125, 34]) =
      .ok (.next (.string [0]) 0, ⟨[], 0⟩) :=
  ⟨fun _ _ _ _ _ => rfl, rfl⟩

/-- The `add_offset` of a non-negative offset never panics. -/
theorem addOffset_nat (pc j : Nat) : addOffset pc (j : Int) = .ok (pc + j) := by
  have h2 : ((pc : Int) + (j : Int)).toNat = pc + j := by omega
  unfold addOffset
  rw [if_neg (by omega), h2]

/-- The shapes of a value that coerces to a Number. -/
theorem Value.toNumber_eq_some (v : Value) (x : Rat)
    (h : v.toNumber = some x) :
    (∃ a : Int, v = .integer a ∧ x = (a : Rat)) ∨ v = .number x := by
  cases v <;> simp [Value.toNumber] at h
  · exact Or.inl ⟨_, rfl, h.symm⟩
  · exact Or.inr (by rw [h])

/-- C7: executing `NumericForLoop` at a four-register window: on the Integer
path (taken exactly when index, limit and step are all Integer) the new index
is the (wrapping) sum `index + step`, and the loop continues — writing
`base[3] := index` and jumping — iff `index ≤ limit` for non-negative step
and iff `limit ≤ index` for negative step (strict comparison decides
past-end, so the body runs when index equals limit); any other value triple
is coerced to Number and follows the same comparison, failing with an error
if some value is not coercible. -/
theorem C7_numeric_for_loop (cf : ClosureV) (pc j : Nat)
    (ts : List LuaTable) (cs : List ClosureV) (us : List UpCell) (b : Bool) :
    (∀ (i l s : Int) (d : Value),
      execInstr cf ⟨pc, [.integer i, .integer l, .integer s, d], ts, cs, us, b⟩
          (.numericForLoop 0 (j : Int)) =
        if if s < 0 then wrap64 (i + s) < l else l < wrap64 (i + s)
        then .ok (⟨pc, [.integer (wrap64 (i + s)), .integer l, .integer s, d],
            ts, cs, us, b⟩, false)
        else .ok (⟨pc + j, [.integer (wrap64 (i + s)), .integer l, .integer s,
            .integer (wrap64 (i + s))], ts, cs, us, b⟩, false)) ∧
    (∀ i l s : Int, 0 < s →
      (¬(if s < 0 then wrap64 (i + s) < l else l < wrap64 (i + s)) ↔
        wrap64 (i + s) ≤ l)) ∧
    (∀ i l s : Int, s < 0 →
      (¬(if s < 0 then wrap64 (i + s) < l else l < wrap64 (i + s)) ↔
        l ≤ wrap64 (i + s))) ∧
    (∀ (iv lv sv d : Value) (x y z : Rat),
      (¬∃ a b2 c : Int, iv = .integer a ∧ lv = .integer b2 ∧ sv = .integer c) →
      iv.toNumber = some x → lv.toNumber = some y → sv.toNumber = some z →
      execInstr cf ⟨pc, [iv, lv, sv, d], ts, cs, us, b⟩
          (.numericForLoop 0 (j : Int)) =
        if if z < 0 then x + z < y else y < x + z
        then .ok (⟨pc, [.number (x + z), lv, sv, d], ts, cs, us, b⟩, false)
        else .ok (⟨pc + j, [.number (x + z), lv, sv, .number (x + z)],
            ts, cs, us, b⟩, false)) ∧
    (∀ iv lv sv d : Value,
      (iv.toNumber = none ∨ lv.toNumber = none ∨ sv.toNumber = none) →
      execInstr cf ⟨pc, [iv, lv, sv, d], ts, cs, us, b⟩
          (.numericForLoop 0 (j : Int)) = .err (.binOp .add)) := by
  have harm : ∀ st : VMState,
      execInstr cf st (.numericForLoop 0 (j : Int)) =
        numericForLoopOp st 0 (j : Int) := fun _ => rfl
  refine ⟨?_, ?_, ?_, ?_, ?_⟩
  · intro i l s d
    rw [harm]
    by_cases hp : if s < 0 then wrap64 (i + s) < l else l < wrap64 (i + s) <;>
      simp [numericForLoopOp, readReg, writeReg, List.get?, addOffset_nat, hp]
  · intro i l s hs
    rw [if_neg (by omega)]
    exact not_lt
  · intro i l s hs
    rw [if_pos hs]
    exact not_lt
  · intro iv lv sv d x y z hno hx hy hz
    rw [harm]
    rcases Value.toNumber_eq_some iv x hx with ⟨a, rfl, hxa⟩ | rfl <;>
      rcases Value.toNumber_eq_some lv y hy with ⟨b2, rfl, hyb⟩ | rfl <;>
      rcases Value.toNumber_eq_some sv z hz with ⟨c, rfl, hzc⟩ | rfl
    · exact absurd ⟨a, b2, c, rfl, rfl, rfl⟩ hno
    all_goals (
      subst_vars
      simp only [numericForLoopOp, readReg, List.get?, VMOut.ok_bind,
        VMOut.pure_def, Value.toNumber, writeReg, addOffset_nat]
      split_ifs <;> simp_all)
  · intro iv lv sv d h
    rw [harm]
    rcases h with h | h | h
    · cases iv <;> first
        | rfl
        | simp [Value.toNumber] at h
    · cases iv <;> first
        | rfl
        | (cases lv <;> first
            | rfl
            | simp [Value.toNumber] at h)
    · cases iv <;> first
        | rfl
        | (cases lv <;> first
            | rfl
            | (cases sv <;> first
                | rfl
                | simp [Value.toNumber] at h))

/-- C7 (witness): the loop-continuation conditions at step 1 and step −1,
the Number path on the triple (2, 3, 1/2), and the failure on a Nil triple. -/
theorem C7_numeric_for_loop_witness :
    ((0 : Int) < 1 ∧
      (¬(if (1 : Int) < 0 then wrap64 (2 + 1) < 3 else (3 : Int) < wrap64 (2 + 1)) ↔
        wrap64 (2 + 1) ≤ 3)) ∧
    ((-1 : Int) < 0 ∧
      (¬(if (-1 : Int) < 0 then wrap64 (2 + -1) < 3 else (3 : Int) < wrap64 (2 + -1)) ↔
        (3 : Int) ≤ wrap64 (2 + -1))) ∧
    execInstr nilCf ⟨1, [.number 2, .number 3, .number (1/2), .nil], [], [], [],
        true⟩ (.numericForLoop 0 ((5 : Nat) : Int)) =
      (if if (1/2 : Rat) < 0 then (2 : Rat) + 1/2 < 3 else (3 : Rat) < 2 + 1/2
       then .ok (⟨1, [.number ((2 : Rat) + 1/2), .number 3, .number (1/2), .nil],
          [], [], [], true⟩, false)
       else .ok (⟨1 + 5, [.number ((2 : Rat) + 1/2), .number 3, .number (1/2),
          .number ((2 : Rat) + 1/2)], [], [], [], true⟩, false)) ∧
    execInstr nilCf ⟨1, [.nil, .nil, .nil, .nil], [], [], [], true⟩
      (.numericForLoop 0 ((5 : Nat) : Int)) = .err (.binOp .add) :=
  ⟨⟨by decide,
    (C7_numeric_for_loop nilCf 1 5 [] [] [] true).2.1 2 3 1 (by decide)⟩,
   ⟨by decide,
    (C7_numeric_for_loop nilCf 1 5 [] [] [] true).2.2.1 2 3 (-1) (by decide)⟩,
   (C7_numeric_for_loop nilCf 1 5 [] [] [] true).2.2.2.1 (.number 2)
     (.number 3) (.number (1/2)) .nil 2 3 (1/2)
     (fun ⟨_, _, _, h1, _, _⟩ => nomatch h1) rfl rfl rfl,
   (C7_numeric_for_loop nilCf 1 5 [] [] [] true).2.2.2.2 .nil .nil .nil .nil
     (Or.inl rfl)⟩

/-- Unfolding of the `ParentLocal` case of the capture loop. -/
theorem captureUpvals_parentLocal (cf : ClosureV) (st : VMState) (r : Nat)
    (rest : List UpValueDescriptor) :
    captureUpvals cf st (.parentLocal r :: rest) =
      match captureUpvals cf (openUpvalue st r).2 rest with
      | .ok (us, st2) => .ok ((openUpvalue st r).1 :: us, st2)
      | .err e => .err e
      | .abort => .abort :=
  rfl

/-- Unfolding of the `Outer` case of the capture loop. -/
theorem captureUpvals_outer (cf : ClosureV) (st : VMState) (i : Nat)
    (rest : List UpValueDescriptor) :
    captureUpvals cf st (.outer i :: rest) =
      (do
        let u ← readUpvalRef cf i
        match captureUpvals cf st rest with
        | .ok (us, st2) => .ok (u :: us, st2)
        | .err e => .err e
        | .abort => .abort) :=
  rfl

/-- The `open_upvalue` touches only the upvalue store. -/
theorem openUpvalue_closures (st : VMState) (r : Nat) :
    (openUpvalue st r).2.closures = st.closures := by
  cases h : st.upvals.findIdx? (fun c => c = .open_ r) <;> simp [openUpvalue, h]

theorem openUpvalue_stackFrame (st : VMState) (r : Nat) :
    (openUpvalue st r).2.stackFrame = st.stackFrame := by
  cases h : st.upvals.findIdx? (fun c => c = .open_ r) <;> simp [openUpvalue, h]

/-- The capture loop of the `Closure` opcode panics whenever the descriptor
list contains `Environment`. -/
theorem captureUpvals_environment (cf : ClosureV) :
    ∀ ds : List UpValueDescriptor, UpValueDescriptor.environment ∈ ds →
      ∀ st : VMState, captureUpvals cf st ds = .abort := by
  intro ds
  induction ds with
  | nil => intro hmem; simp at hmem
  | cons d ds ih =>
    intro hmem st
    cases d with
    | environment => rfl
    | parentLocal r =>
      have hm : UpValueDescriptor.environment ∈ ds := by
        rcases List.mem_cons.mp hmem with h1 | h1
        · exact absurd h1 (by simp)
        · exact h1
      rw [captureUpvals_parentLocal, ih hm]
    | outer i =>
      have hm : UpValueDescriptor.environment ∈ ds := by
        rcases List.mem_cons.mp hmem with h1 | h1
        · exact absurd h1 (by simp)
        · exact h1
      rw [captureUpvals_outer]
      cases hr : readUpvalRef cf i with
      | ok u => simp [hr, ih hm]
      | err e => simp [readUpvalRef] at hr; split at hr <;> simp_all
      | abort => simp [hr]

/-- The capture loop succeeds when every descriptor is `ParentLocal`, or
`Outer` with an index inside the enclosing closure's upvalue vector; it never
touches the closure store or the register frame. -/
theorem captureUpvals_ok (cf : ClosureV) :
    ∀ ds : List UpValueDescriptor,
      (∀ d ∈ ds, d ≠ .environment ∧
        ∀ i, d = .outer i → i < cf.upvalues.length) →
      ∀ st : VMState, ∃ us st',
        captureUpvals cf st ds = .ok (us, st') ∧
        st'.closures = st.closures ∧ st'.stackFrame = st.stackFrame := by
  intro ds
  induction ds with
  | nil => exact fun _ st => ⟨[], st, rfl, rfl, rfl⟩
  | cons d ds ih =>
    intro h st
    have hds : ∀ d' ∈ ds, d' ≠ .environment ∧
        ∀ i, d' = .outer i → i < cf.upvalues.length :=
      fun d' hd' => h d' (List.mem_cons_of_mem d hd')
    cases d with
    | environment => exact absurd rfl (h _ (List.mem_cons_self _ _)).1
    | parentLocal r =>
      obtain ⟨us, st', heq, hc, hs⟩ := ih hds (openUpvalue st r).2
      refine ⟨(openUpvalue st r).1 :: us, st', ?_, ?_, ?_⟩
      · rw [captureUpvals_parentLocal, heq]
      · rw [hc, openUpvalue_closures]
      · rw [hs, openUpvalue_stackFrame]
    | outer i =>
      obtain ⟨us, st', heq, hc, hs⟩ := ih hds st
      have hi : i < cf.upvalues.length :=
        (h _ (List.mem_cons_self _ _)).2 i rfl
      obtain ⟨u, hru⟩ : ∃ u, readUpvalRef cf i = .ok u := by
        simp only [readUpvalRef]
        cases hg : cf.upvalues.get? i with
        | some u => exact ⟨u, rfl⟩
        | none =>
          have := List.get?_eq_none.mp hg
          omega
      exact ⟨u :: us, st',
        by rw [captureUpvals_outer, hru, VMOut.ok_bind, heq], hc, hs⟩

/-- C8: a `Closure` opcode instantiating a nested prototype whose upvalue
descriptors contain `Environment` terminates abnormally (the
`panic!("_ENV upvalue is only allowed on top-level closure")`) rather than
returning an error value; with only `ParentLocal` and `Outer` descriptors
(`Outer` indices within the enclosing closure's upvalues) the instantiation
completes normally, writing the freshly allocated function value into the
destination register. -/
theorem C8_closure_environment (cf : ClosureV) (st : VMState)
    (pidx dest : Nat) (p : FunctionProto)
    (hp : cf.proto.prototypes.get? pidx = some p) :
    (UpValueDescriptor.environment ∈ p.upvalues →
      execInstr cf st (.closure pidx dest) = .abort) ∧
    ((∀ d ∈ p.upvalues, d ≠ .environment ∧
        ∀ i, d = .outer i → i < cf.upvalues.length) →
      dest < st.stackFrame.length →
      ∃ st', execInstr cf st (.closure pidx dest) = .ok (st', false) ∧
        st'.stackFrame.get? dest = some (.fn st.closures.length)) := by
  have harm : execInstr cf st (.closure pidx dest) = closureOp cf st pidx dest :=
    rfl
  constructor
  · intro hmem
    rw [harm]
    simp only [closureOp, hp, captureUpvals_environment cf p.upvalues hmem st,
      VMOut.abort_bind]
  · intro hgood hdest
    obtain ⟨us, st1, heq, hc, hs⟩ := captureUpvals_ok cf p.upvalues hgood st
    have hw : writeReg { st1 with closures := st1.closures ++ [⟨p, us⟩] } dest
        (.fn st1.closures.length) =
        .ok { st1 with
          closures := st1.closures ++ [⟨p, us⟩],
          stackFrame := st1.stackFrame.set dest (.fn st1.closures.length) } := by
      have : dest < st1.stackFrame.length := hs ▸ hdest
      simp [writeReg, this]
    refine ⟨{ st1 with
      closures := st1.closures ++ [⟨p, us⟩],
      stackFrame := st1.stackFrame.set dest (.fn st1.closures.length) }, ?_, ?_⟩
    · rw [harm]
      simp only [closureOp, hp, heq, VMOut.ok_bind, hw, VMOut.pure_def]
    · have hd1 : dest < st1.stackFrame.length := hs ▸ hdest
      simp only [List.get?_set_eq_of_lt _ hd1, hc]

/-- C8 (witness): a nested prototype with an `Environment` descriptor panics;
one with `ParentLocal` and `Outer` descriptors instantiates normally, the
destination receiving the first allocated function value. -/
theorem C8_closure_environment_witness :
    execInstr ⟨.mk [] [] [.mk [] [] [] [.environment]] [], []⟩ nilSt
      (.closure 0 0) = .abort ∧
    ∃ st', execInstr ⟨.mk [] [] [.mk [] [] [] [.parentLocal 1, .outer 0]] [],
        [5]⟩ ⟨1, [.nil, .nil, .nil], [], [], [.closed (.integer 9)], true⟩
      (.closure 0 0) = .ok (st', false) ∧
      st'.stackFrame.get? 0 = some (.fn 0) :=
  ⟨(C8_closure_environment ⟨.mk [] [] [.mk [] [] [] [.environment]] [], []⟩
      nilSt 0 0 (.mk [] [] [] [.environment]) rfl).1 (by decide),
   (C8_closure_environment
      ⟨.mk [] [] [.mk [] [] [] [.parentLocal 1, .outer 0]] [], [5]⟩
      ⟨1, [.nil, .nil, .nil], [], [], [.closed (.integer 9)], true⟩ 0 0
      (.mk [] [] [] [.parentLocal 1, .outer 0]) rfl).2
    (by
      intro d hd
      fin_cases hd
      · exact ⟨by decide, fun i h => nomatch h⟩
      · exact ⟨by decide, fun i h => by cases h; decide⟩)
    (by decide)⟩

end Luster
